import Mathlib

/-!
Verification development for the GLM-4.7-Flash-Rapport streaming
tool-call interception proxy (`src/utils/standalone-googlesearch/` and
`src/lib/mcp-servers/googlesearch/mcp-server/index.js`).

The JavaScript source is shallowly embedded: pure helpers become Lean
functions, the streaming request handler becomes a recursive trace
function over a state record, and the external search call becomes an
oracle parameter recording one outcome per invocation.
-/

/-! ## JSON values

`JSON.parse` / `JSON.stringify` are used throughout the source
(`processRequest`, `parseSSE`, tool-argument extraction).  JSON values
are modelled with numbers kept as their raw lexeme (no claim inspects a
numeric value, so float semantics are not needed).  Objects are ordered
field lists; duplicate keys are collapsed at parse time by replacing the
value in place (first position, last value), matching JavaScript object
semantics. -/

inductive JsonValue where
  | null
  | bool (b : Bool)
  | num (raw : String)
  | str (s : String)
  | arr (items : List JsonValue)
  | obj (fields : List (String × JsonValue))

/-- Assoc-list lookup of the first binding of a key. -/
def lookupPairs : List (String × JsonValue) → String → Option JsonValue
  | [], _ => none
  | (k, v) :: rest, key => if k = key then some v else lookupPairs rest key

/-- Member access `v.k` of JavaScript: `none` plays `undefined`. -/
def lookupField (v : JsonValue) (key : String) : Option JsonValue :=
  match v with
  | .obj fields => lookupPairs fields key
  | _ => none

/-- Assignment `v[k] = x` on a JavaScript object: replaces the binding in
place if the key exists, otherwise appends it. -/
def insertField : List (String × JsonValue) → String → JsonValue → List (String × JsonValue)
  | [], key, x => [(key, x)]
  | (k, v) :: rest, key, x =>
    if k = key then (k, x) :: rest else (k, v) :: insertField rest key x

/-- Assignment on a `JsonValue`: only objects are updated. -/
def setField (v : JsonValue) (key : String) (x : JsonValue) : JsonValue :=
  match v with
  | .obj fields => .obj (insertField fields key x)
  | other => other

theorem lookupPairs_insertField_ne (fields : List (String × JsonValue)) (key k : String)
    (x : JsonValue) (h : k ≠ key) :
    lookupPairs (insertField fields key x) k = lookupPairs fields k := by
  induction fields with
  | nil => simp [insertField, lookupPairs, Ne.symm h]
  | cons p rest ih =>
    obtain ⟨pk, pv⟩ := p
    by_cases hk : pk = key
    · subst hk
      simp [insertField, lookupPairs, Ne.symm h]
    · simp only [insertField, if_neg hk, lookupPairs]
      by_cases hpk : pk = k <;> simp [hpk, ih]

theorem lookupField_setField_ne (v : JsonValue) (key k : String) (x : JsonValue)
    (h : k ≠ key) : lookupField (setField v key x) k = lookupField v k := by
  cases v <;> simp [setField, lookupField]
  exact lookupPairs_insertField_ne _ _ _ _ h

/-! ## JSON parsing (`JSON.parse`)

A fuel-indexed recursive-descent parser over `List Char`.  The fuel
passed by `jsonParseL` is generous enough for every input considered in
the theorems below; running out of fuel yields `none` (a parse error). -/

def isJsonWs (c : Char) : Bool :=
  c = ' ' || c = '\t' || c = '\n' || c = '\r'

def skipWs (input : List Char) : List Char :=
  input.dropWhile isJsonWs

def isDigitCh (c : Char) : Bool :=
  '0' ≤ c && c ≤ '9'

def hexVal (c : Char) : Option Nat :=
  let n := c.toNat
  if 48 ≤ n && n ≤ 57 then some (n - 48)
  else if 97 ≤ n && n ≤ 102 then some (n - 87)
  else if 65 ≤ n && n ≤ 70 then some (n - 55)
  else none

/-- Body of a JSON string literal after the opening quote.  Returns the
decoded characters and the input after the closing quote. -/
def parseStringBody : Nat → List Char → Option (List Char × List Char)
  | 0, _ => none
  | _ + 1, [] => none
  | fuel + 1, c :: rest =>
    if c = '"' then some ([], rest)
    else if c = '\\' then
      match rest with
      | [] => none
      | e :: rest2 =>
        let decoded : Option (Char × List Char) :=
          if e = '"' then some ('"', rest2)
          else if e = '\\' then some ('\\', rest2)
          else if e = '/' then some ('/', rest2)
          else if e = 'b' then some (Char.ofNat 8, rest2)
          else if e = 'f' then some (Char.ofNat 12, rest2)
          else if e = 'n' then some ('\n', rest2)
          else if e = 'r' then some ('\r', rest2)
          else if e = 't' then some ('\t', rest2)
          else if e = 'u' then
            match rest2 with
            | h1 :: h2 :: h3 :: h4 :: rest3 =>
              match hexVal h1, hexVal h2, hexVal h3, hexVal h4 with
              | some a, some b, some c2, some d =>
                some (Char.ofNat (((a * 16 + b) * 16 + c2) * 16 + d), rest3)
              | _, _, _, _ => none
            | _ => none
          else none
        match decoded with
        | none => none
        | some (ch, r) =>
          match parseStringBody fuel r with
          | none => none
          | some (cs, r2) => some (ch :: cs, r2)
    else if c.toNat < 32 then none
    else
      match parseStringBody fuel rest with
      | none => none
      | some (cs, r2) => some (c :: cs, r2)

/-- Exponent part of a JSON number. -/
def parseNumExp (lexed : List Char) (e : Char) (r : List Char) :
    Option (List Char × List Char) :=
  let (sg, r1) :=
    match r with
    | '+' :: rr => ([('+' : Char)], rr)
    | '-' :: rr => ([('-' : Char)], rr)
    | _ => ([], r)
  let (ds, r2) := r1.span isDigitCh
  if ds = [] then none else some (lexed ++ e :: (sg ++ ds), r2)

/-- Fraction and exponent parts of a JSON number. -/
def parseNumTail (lexed : List Char) (r : List Char) : Option (List Char × List Char) :=
  let fr : Option (List Char × List Char) :=
    match r with
    | '.' :: rr =>
      let (ds, r3) := rr.span isDigitCh
      if ds = [] then none else some (lexed ++ '.' :: ds, r3)
    | _ => some (lexed, r)
  match fr with
  | none => none
  | some (lex2, r2) =>
    match r2 with
    | 'e' :: rr => parseNumExp lex2 'e' rr
    | 'E' :: rr => parseNumExp lex2 'E' rr
    | _ => some (lex2, r2)

/-- Lexes a JSON number (`-? (0 | [1-9][0-9]*) frac? exp?`), returning the
lexeme and the rest of the input. -/
def parseNumberLex (input : List Char) : Option (List Char × List Char) :=
  let (signPart, r1) :=
    match input with
    | '-' :: r => ([('-' : Char)], r)
    | _ => ([], input)
  match r1 with
  | '0' :: r2 => parseNumTail (signPart ++ ['0']) r2
  | c :: _ =>
    if isDigitCh c then
      let (ds, r2) := r1.span isDigitCh
      parseNumTail (signPart ++ ds) r2
    else none
  | [] => none

mutual

def parseValue : Nat → List Char → Option (JsonValue × List Char)
  | 0, _ => none
  | fuel + 1, input =>
    match skipWs input with
    | 'n' :: 'u' :: 'l' :: 'l' :: rest => some (.null, rest)
    | 't' :: 'r' :: 'u' :: 'e' :: rest => some (.bool true, rest)
    | 'f' :: 'a' :: 'l' :: 's' :: 'e' :: rest => some (.bool false, rest)
    | '"' :: rest =>
      match parseStringBody fuel rest with
      | none => none
      | some (cs, r2) => some (.str (String.mk cs), r2)
    | '[' :: rest =>
      (match skipWs rest with
       | ']' :: r2 => some (.arr [], r2)
       | _ => parseArrayItems fuel [] rest)
    | '{' :: rest =>
      (match skipWs rest with
       | '}' :: r2 => some (.obj [], r2)
       | _ => parseObjectItems fuel [] rest)
    | rest =>
      match parseNumberLex rest with
      | none => none
      | some (lx, r2) => some (.num (String.mk lx), r2)

def parseArrayItems : Nat → List JsonValue → List Char → Option (JsonValue × List Char)
  | 0, _, _ => none
  | fuel + 1, acc, input =>
    match parseValue fuel input with
    | none => none
    | some (v, rest) =>
      match skipWs rest with
      | ',' :: r2 => parseArrayItems fuel (acc ++ [v]) r2
      | ']' :: r2 => some (.arr (acc ++ [v]), r2)
      | _ => none

def parseObjectItems : Nat → List (String × JsonValue) → List Char →
    Option (JsonValue × List Char)
  | 0, _, _ => none
  | fuel + 1, acc, input =>
    match skipWs input with
    | '"' :: rest =>
      (match parseStringBody fuel rest with
       | none => none
       | some (kcs, r2) =>
         match skipWs r2 with
         | ':' :: r3 =>
           (match parseValue fuel r3 with
            | none => none
            | some (v, r4) =>
              let acc2 := insertField acc (String.mk kcs) v
              match skipWs r4 with
              | ',' :: r5 => parseObjectItems fuel acc2 r5
              | '}' :: r5 => some (.obj acc2, r5)
              | _ => none)
         | _ => none)
    | _ => none

end

/-- `JSON.parse` on a character list: parses one value and requires the
rest of the input to be whitespace, as JavaScript does. -/
def jsonParseL (input : List Char) : Option JsonValue :=
  match parseValue (4 * input.length + 16) input with
  | some (v, rest) => if skipWs rest = [] then some v else none
  | none => none

/-- `JSON.parse` on a string. -/
def jsonParse (s : String) : Option JsonValue :=
  jsonParseL s.data

/-! ## JSON printing (`JSON.stringify`) -/

/-- Escapes one character for a JSON string literal. -/
def escapeJsonChar (c : Char) : List Char :=
  if c = '"' then ['\\', '"']
  else if c = '\\' then ['\\', '\\']
  else if c = '\n' then ['\\', 'n']
  else if c = '\r' then ['\\', 'r']
  else if c = '\t' then ['\\', 't']
  else if c.toNat < 32 then
    let hx := fun (n : Nat) => if n < 10 then Char.ofNat ('0'.toNat + n)
              else Char.ofNat ('a'.toNat + (n - 10))
    ['\\', 'u', '0', '0', hx (c.toNat / 16), hx (c.toNat % 16)]
  else [c]

def encodeJsonString (s : String) : String :=
  String.mk ('"' :: s.data.flatMap escapeJsonChar ++ ['"'])

mutual

def jsonStringify : JsonValue → String
  | .null => "null"
  | .bool true => "true"
  | .bool false => "false"
  | .num raw => raw
  | .str s => encodeJsonString s
  | .arr items => "[" ++ stringifyArr items ++ "]"
  | .obj fields => "\x7b" ++ stringifyObj fields ++ "\x7d"

def stringifyArr : List JsonValue → String
  | [] => ""
  | [v] => jsonStringify v
  | v :: rest => jsonStringify v ++ "," ++ stringifyArr rest

def stringifyObj : List (String × JsonValue) → String
  | [] => ""
  | [(k, v)] => encodeJsonString k ++ ":" ++ jsonStringify v
  | (k, v) :: rest => encodeJsonString k ++ ":" ++ jsonStringify v ++ "," ++ stringifyObj rest

end

example : jsonParse "\x7b\"query\": \"test\"\x7d" = some (.obj [("query", .str "test")]) := rfl

example : jsonParse "hello" = none := rfl

example : jsonParse "" = none := rfl

/-! ## Transport Framer

`parseSSE` (server.js streaming variant, source lines 758-793 of the
combined `server-llamacpp.js` file) and `parseOpenAIStream` (lines
166-195) share the same chunk-reassembly loop: append the chunk to the
retained remainder, split on `'\n'`, process every complete line, and
retain the final (incomplete) segment for the next chunk.  Chunks are
modelled at character granularity (`List Char`); UTF-8 byte decoding is
performed by the JavaScript runtime before this code runs. -/

/-- Splits a character list on `'\n'` exactly as `data.split('\n')` does:
every occurrence separates segments and empty segments are kept, so the
result always has at least one element. -/
def splitNl : List Char → List (List Char)
  | [] => [[]]
  | c :: cs =>
    if c = '\n' then [] :: splitNl cs
    else
      match splitNl cs with
      | [] => [[c]]
      | s :: rest => (c :: s) :: rest

theorem splitNl_ne_nil (s : List Char) : splitNl s ≠ [] := by
  cases s with
  | nil => simp [splitNl]
  | cons c cs =>
    simp only [splitNl]
    split
    · simp
    · split <;> simp

theorem splitNl_cons_nl (cs : List Char) : splitNl ('\n' :: cs) = [] :: splitNl cs := by
  simp [splitNl]

theorem splitNl_cons_ne {c : Char} (cs : List Char) (h : ¬ c = '\n')
    {s : List Char} {rest : List (List Char)} (hs : splitNl cs = s :: rest) :
    splitNl (c :: cs) = (c :: s) :: rest := by
  simp only [splitNl, if_neg h, hs]

theorem splitNl_eq_single (s : List Char) (h : '\n' ∉ s) : splitNl s = [s] := by
  induction s with
  | nil => simp [splitNl]
  | cons c cs ih =>
    simp only [List.mem_cons, not_or] at h
    have h1 : ¬ c = '\n' := fun e => h.1 e.symm
    exact splitNl_cons_ne cs h1 (ih h.2)

theorem splitNl_segments_noNl (s : List Char) : ∀ t ∈ splitNl s, '\n' ∉ t := by
  induction s with
  | nil => simp [splitNl]
  | cons c cs ih =>
    by_cases hc : c = '\n'
    · subst hc
      rw [splitNl_cons_nl]
      intro t ht
      rcases List.mem_cons.mp ht with h | h
      · simp [h]
      · exact ih t h
    · rcases hs : splitNl cs with _ | ⟨s0, rest⟩
      · exact absurd hs (splitNl_ne_nil cs)
      · rw [splitNl_cons_ne cs hc hs]
        intro t ht
        rcases List.mem_cons.mp ht with h | h
        · subst h
          intro hmem
          rcases List.mem_cons.mp hmem with h | h
          · exact hc h.symm
          · exact ih s0 (hs ▸ List.mem_cons_self s0 rest) h
        · exact ih t (hs ▸ List.mem_cons_of_mem s0 h)

theorem mem_getLastD {α : Type} (l : List α) (d : α) (h : l ≠ []) : l.getLastD d ∈ l := by
  induction l with
  | nil => exact absurd rfl h
  | cons a rest ih =>
    cases rest with
    | nil => simp [List.getLastD]
    | cons b rest2 =>
      simp only [List.getLastD]
      exact List.mem_cons_of_mem a (ih (by simp))

theorem getLastD_cons_of_ne_nil {α : Type} (a : α) (l : List α) (d : α) (h : l ≠ []) :
    (a :: l).getLastD d = l.getLastD d := by
  cases l with
  | nil => exact absurd rfl h
  | cons b rest => simp [List.getLastD]

theorem getLastD_append_ne_nil {α : Type} (xs ys : List α) (d : α) (h : ys ≠ []) :
    (xs ++ ys).getLastD d = ys.getLastD d := by
  rw [List.getLastD_eq_getLast?, List.getLastD_eq_getLast?,
    List.getLast?_append_of_ne_nil _ h]

/-- Glues a leading segment onto the head of a nonempty segment list. -/
def consHead (x : List Char) : List (List Char) → List (List Char)
  | [] => [x]
  | y :: ys => (x ++ y) :: ys

theorem consHead_ne_nil (x : List Char) (l : List (List Char)) : consHead x l ≠ [] := by
  cases l <;> simp [consHead]

theorem splitNl_append (a b : List Char) :
    splitNl (a ++ b) = (splitNl a).dropLast ++ consHead ((splitNl a).getLastD []) (splitNl b) := by
  induction a with
  | nil =>
    rcases hb : splitNl b with _ | ⟨s0, rest⟩
    · exact absurd hb (splitNl_ne_nil b)
    · simp [splitNl, consHead, hb]
  | cons c cs ih =>
    rcases hs : splitNl cs with _ | ⟨s0, rest⟩
    · exact absurd hs (splitNl_ne_nil cs)
    by_cases hc : c = '\n'
    · subst hc
      rw [List.cons_append, splitNl_cons_nl, splitNl_cons_nl, ih, hs]
      have hne : (s0 :: rest : List (List Char)) ≠ [] := by simp
      rw [List.dropLast_cons_of_ne_nil hne, getLastD_cons_of_ne_nil _ _ _ hne,
        List.cons_append]
    · rw [hs] at ih
      cases rest with
      | nil =>
        rcases hb : splitNl b with _ | ⟨u0, u1⟩
        · exact absurd hb (splitNl_ne_nil b)
        rw [hb] at ih
        simp only [List.dropLast_single, List.nil_append, List.getLastD, consHead] at ih
        rw [List.cons_append, splitNl_cons_ne _ hc ih, splitNl_cons_ne cs hc hs]
        simp [consHead, hb]
      | cons r1 rs =>
        have hrne : (r1 :: rs : List (List Char)) ≠ [] := by simp
        rw [List.dropLast_cons_of_ne_nil hrne, getLastD_cons_of_ne_nil _ _ _ hrne,
          List.cons_append] at ih
        rcases hdrop : (r1 :: rs).dropLast ++ consHead ((r1 :: rs).getLastD []) (splitNl b)
            with _ | ⟨w0, w1⟩
        · rcases List.append_eq_nil.mp hdrop with ⟨_, h2⟩
          exact absurd h2 (consHead_ne_nil _ _)
        rw [hdrop] at ih
        rw [List.cons_append, splitNl_cons_ne _ hc ih, splitNl_cons_ne cs hc hs]
        have hrne2 : (r1 :: rs).dropLast ++ consHead ((r1 :: rs).getLastD []) (splitNl b) =
            w0 :: w1 := hdrop
        have hlast : ((c :: s0) :: r1 :: rs).getLastD [] = (r1 :: rs).getLastD [] :=
          getLastD_cons_of_ne_nil _ _ _ hrne
        rw [List.dropLast_cons_of_ne_nil hrne, hlast, List.cons_append, hdrop]

/-- The character-level core of the chunk loop: split `leftover ++
chunk`, keep the final segment as the new leftover, process all complete
lines.  The full byte-level loop, including the per-chunk UTF-8 decode
and the remainder re-encode of the source, is `framerRunBytes` below; it
reduces to this function exactly when every chunk boundary falls on a
character boundary. -/
def framerRun {E : Type} (handle : List Char → List E) :
    List Char → List (List Char) → List E
  | _, [] => []
  | leftover, c :: cs =>
    let segs := splitNl (leftover ++ c)
    (segs.dropLast).flatMap handle ++ framerRun handle (segs.getLastD []) cs

theorem framerRun_merge {E : Type} (handle : List Char → List E)
    (l c1 c2 : List Char) (cs : List (List Char)) :
    framerRun handle l (c1 :: c2 :: cs) = framerRun handle l ((c1 ++ c2) :: cs) := by
  have hlast : '\n' ∉ (splitNl (l ++ c1)).getLastD [] := by
    have hm := mem_getLastD (splitNl (l ++ c1)) [] (splitNl_ne_nil _)
    exact splitNl_segments_noNl (l ++ c1) _ hm
  have hsingle : splitNl ((splitNl (l ++ c1)).getLastD []) = [(splitNl (l ++ c1)).getLastD []] :=
    splitNl_eq_single _ hlast
  have hkey : splitNl ((l ++ c1) ++ c2) =
      (splitNl (l ++ c1)).dropLast ++ splitNl ((splitNl (l ++ c1)).getLastD [] ++ c2) := by
    rw [splitNl_append (l ++ c1) c2]
    congr 1
    rw [splitNl_append ((splitNl (l ++ c1)).getLastD []) c2, hsingle]
    simp [List.dropLast_single, List.getLastD]
  simp only [framerRun]
  rw [← List.append_assoc l c1 c2, hkey]
  have hne2 : splitNl ((splitNl (l ++ c1)).getLastD [] ++ c2) ≠ [] := splitNl_ne_nil _
  rw [List.dropLast_append_of_ne_nil _ hne2, List.flatMap_append, List.append_assoc]
  congr 1
  rw [getLastD_append_ne_nil _ _ _ hne2]

/-- Concatenation of a chunk list into one chunk. -/
def joinChunks (cs : List (List Char)) : List Char :=
  cs.foldr (· ++ ·) []

theorem framerRun_join_aux {E : Type} (handle : List Char → List E) :
    ∀ (n : Nat) (cs : List (List Char)), cs.length ≤ n → ∀ l, '\n' ∉ l →
      framerRun handle l cs = framerRun handle l [joinChunks cs] := by
  intro n
  induction n with
  | zero =>
    intro cs hcs l hl
    have : cs = [] := List.length_eq_zero.mp (Nat.le_zero.mp hcs)
    subst this
    simp [framerRun, joinChunks, splitNl_eq_single l hl]
  | succ n ih =>
    intro cs hcs l hl
    match cs with
    | [] => simp [framerRun, joinChunks, splitNl_eq_single l hl]
    | [c] => simp [joinChunks]
    | c1 :: c2 :: rest =>
      rw [framerRun_merge]
      have hlen : ((c1 ++ c2) :: rest).length ≤ n := by
        simp only [List.length_cons] at hcs ⊢
        omega
      rw [ih ((c1 ++ c2) :: rest) hlen l hl]
      have : joinChunks ((c1 ++ c2) :: rest) = joinChunks (c1 :: c2 :: rest) := by
        simp [joinChunks, List.append_assoc]
      rw [this]

theorem framerRun_join {E : Type} (handle : List Char → List E)
    (cs : List (List Char)) :
    framerRun handle [] cs = framerRun handle [] [joinChunks cs] :=
  framerRun_join_aux handle cs.length cs (Nat.le_refl _) [] (by simp)

/-! ## Dialect frame handlers

Per-line processing of `parseSSE` (source lines 770-791) and
`parseOpenAIStream` (source lines 178-193). -/

/-- JavaScript `String.prototype.trim` whitespace over the ASCII range
(the frames considered are ASCII; `'\n'` never occurs in a split
segment). -/
def isTrimWs (c : Char) : Bool :=
  c = ' ' || c = '\t' || c = '\n' || c = '\r' || c = Char.ofNat 11 || c = Char.ofNat 12

/-- `line.trim()`. -/
def jsTrim (s : List Char) : List Char :=
  ((s.dropWhile isTrimWs).reverse.dropWhile isTrimWs).reverse

/-- The `"data: "` frame prefix. -/
def dataPrefix : List Char := 'd' :: 'a' :: 't' :: 'a' :: ':' :: ' ' :: []

/-- The `[DONE]` stream-end sentinel. -/
def doneLit : List Char := '[' :: 'D' :: 'O' :: 'N' :: 'E' :: ']' :: []

/-- A frame produced by the framer: either the terminal `done` marker or a
parsed JSON event. -/
inductive FrameEvent where
  | done
  | ev (v : JsonValue)

/-- The `type` field of an event as a string, when it is one. -/
def typeStr (v : JsonValue) : Option String :=
  match lookupField v "type" with
  | some (.str s) => some s
  | _ => none

/-- One line of `parseSSE`: skip blank lines and lines without the
`data: ` prefix; emit `done` for the `[DONE]` sentinel; parse the JSON
payload, emitting an extra `done` after a `message_stop` event (Ollama
compatibility); drop lines whose payload is invalid JSON. -/
def handleSSELineL (line : List Char) : List FrameEvent :=
  if jsTrim line = [] then []
  else if dataPrefix.isPrefixOf line then
    let jsonStr := line.drop 6
    if jsTrim jsonStr = doneLit then [.done]
    else
      match jsonParseL jsonStr with
      | some v =>
        if typeStr v = some "message_stop" then [.ev v, .done] else [.ev v]
      | none => []
  else []

/-- One line of `parseOpenAIStream`: like `handleSSELineL` but the payload
is trimmed before the `[DONE]` comparison and parse, and there is no
`message_stop` special case. -/
def handleOpenAILineL (line : List Char) : List FrameEvent :=
  if jsTrim line = [] then []
  else if dataPrefix.isPrefixOf line then
    let jsonStr := jsTrim (line.drop 6)
    if jsonStr = doneLit then [.done]
    else
      match jsonParseL jsonStr with
      | some v => [.ev v]
      | none => []
  else []

/-- `parseSSE` applied to a list of character-level transport chunks
(the byte-level entry point is `parseSSEBytesL` below). -/
def parseSSEChunksL (chunks : List (List Char)) : List FrameEvent :=
  framerRun handleSSELineL [] chunks

/-- `parseOpenAIStream` applied to a list of character-level transport
chunks (the byte-level entry point is `parseOpenAIBytesL` below). -/
def parseOpenAIChunksL (chunks : List (List Char)) : List FrameEvent :=
  framerRun handleOpenAILineL [] chunks

/-- Frame-level event list of `parseSSE`: the concatenation of the
per-line events of a list of complete lines. -/
def sseLineEvents (lines : List (List Char)) : List FrameEvent :=
  lines.flatMap handleSSELineL

/-! ### Spec-shaped adapter for C5

Modelled from the spec's words (§4.2/§7): "Malformed JSON in a frame is
not fatal: the frame is surfaced as `Unknown(raw)` and processing
continues."  This variant differs from `handleSSELineL` only in the
invalid-JSON branch, which surfaces the raw payload instead of dropping
the frame. -/

inductive SpecFrameEvent where
  | done
  | ev (v : JsonValue)
  | unknown (raw : List Char)

/-- Per-line handler following the spec's words for the malformed-JSON
case. -/
def handleSSELineSpec (line : List Char) : List SpecFrameEvent :=
  if jsTrim line = [] then []
  else if dataPrefix.isPrefixOf line then
    let jsonStr := line.drop 6
    if jsTrim jsonStr = doneLit then [.done]
    else
      match jsonParseL jsonStr with
      | some v =>
        if typeStr v = some "message_stop" then [.ev v, .done] else [.ev v]
      | none => [.unknown jsonStr]
  else []

/-- Spec-shaped framer for C5. -/
def parseSSESpecChunksL (chunks : List (List Char)) : List SpecFrameEvent :=
  framerRun handleSSELineSpec [] chunks

example : parseSSEChunksL ["data: [DONE]\n".data] = [.done] := rfl

example : parseSSEChunksL ["data: [DO".data, "NE]\n".data] = [.done] := rfl

/-! ## Claim C4: framing under arbitrary byte chunking

The chunk loop of both parsers works on bytes: it concatenates the
retained remainder bytes with the incoming chunk and decodes them
(`Buffer.concat(buffer).toString('utf8')`, combined file lines 762-763
and 170-171), splits the decoded string, and re-encodes the final
(incomplete) decoded segment as the new remainder
(`Buffer.from(remainder)`, lines 768 and 176).  `framerRunBytes` embeds
this loop over `List Nat` byte chunks; the decode is the WHATWG UTF-8
decoder (the behaviour of `Buffer.toString('utf8')`): ill-formed input
produces U+FFFD replacement characters, so a chunk boundary inside a
multi-byte character corrupts the decoded text.  `framerRun` above is
the character-level core of the same loop, to which the byte loop
reduces exactly when every chunk boundary falls on a character
boundary. -/

/-- U+FFFD, the replacement character emitted for ill-formed UTF-8. -/
def replChar : Char := Char.ofNat 0xFFFD

/-- UTF-8 encoding of one character (every `Char` is a Unicode scalar
value, so the encoding is total and well-formed). -/
def utf8EncodeChar (c : Char) : List Nat :=
  let n := c.toNat
  if n ≤ 0x7F then [n]
  else if n ≤ 0x7FF then [0xC0 + n / 64, 0x80 + n % 64]
  else if n ≤ 0xFFFF then [0xE0 + n / 4096, 0x80 + (n / 64) % 64, 0x80 + n % 64]
  else [0xF0 + n / 262144, 0x80 + (n / 4096) % 64, 0x80 + (n / 64) % 64, 0x80 + n % 64]

/-- UTF-8 encoding of a character list (`Buffer.from(string)`). -/
def utf8EncodeL (s : List Char) : List Nat :=
  s.flatMap utf8EncodeChar

/-- Classification of one byte in the decoder's fresh state: an ASCII
character, the start of a multi-byte sequence (initial code point,
continuation bytes needed, and the WHATWG boundaries for the first
continuation byte), or an error. -/
inductive Utf8Start where
  | ascii (c : Char)
  | seq (cp needed lower upper : Nat)
  | bad

/-- The WHATWG UTF-8 decoder's lead-byte table: `0xE0`/`0xED` and
`0xF0`/`0xF4` restrict the first continuation byte so that surrogates,
overlong forms and code points above U+10FFFF are rejected. -/
def utf8Classify (b : Nat) : Utf8Start :=
  if b ≤ 0x7F then .ascii (Char.ofNat b)
  else if 0xC2 ≤ b ∧ b ≤ 0xDF then .seq (b - 0xC0) 1 0x80 0xBF
  else if b = 0xE0 then .seq 0 2 0xA0 0xBF
  else if 0xE1 ≤ b ∧ b ≤ 0xEC then .seq (b - 0xE0) 2 0x80 0xBF
  else if b = 0xED then .seq 0xD 2 0x80 0x9F
  else if 0xEE ≤ b ∧ b ≤ 0xEF then .seq (b - 0xE0) 2 0x80 0xBF
  else if b = 0xF0 then .seq 0 3 0x90 0xBF
  else if 0xF1 ≤ b ∧ b ≤ 0xF3 then .seq (b - 0xF0) 3 0x80 0xBF
  else if b = 0xF4 then .seq 4 3 0x80 0x8F
  else .bad

/-- The WHATWG UTF-8 decoding loop with replacement.  State: accumulated
code point, continuation bytes still needed, and the boundaries for the
next continuation byte.  A byte outside the boundaries emits U+FFFD and
is reprocessed in the fresh state (inlined, so the recursion stays
structural); a truncated sequence at end of input emits one U+FFFD. -/
def utf8DecodeLoop : List Nat → Nat → Nat → Nat → Nat → List Char
  | [], _, needed, _, _ => if needed = 0 then [] else [replChar]
  | b :: rest, cp, needed, lower, upper =>
    if needed = 0 then
      match utf8Classify b with
      | .ascii c => c :: utf8DecodeLoop rest 0 0 0x80 0xBF
      | .seq cp2 n2 lo2 up2 => utf8DecodeLoop rest cp2 n2 lo2 up2
      | .bad => replChar :: utf8DecodeLoop rest 0 0 0x80 0xBF
    else
      if lower ≤ b ∧ b ≤ upper then
        if needed = 1 then
          Char.ofNat (cp * 64 + (b - 0x80)) :: utf8DecodeLoop rest 0 0 0x80 0xBF
        else utf8DecodeLoop rest (cp * 64 + (b - 0x80)) (needed - 1) 0x80 0xBF
      else
        replChar ::
        (match utf8Classify b with
         | .ascii c => c :: utf8DecodeLoop rest 0 0 0x80 0xBF
         | .seq cp2 n2 lo2 up2 => utf8DecodeLoop rest cp2 n2 lo2 up2
         | .bad => replChar :: utf8DecodeLoop rest 0 0 0x80 0xBF)

/-- `Buffer.toString('utf8')`. -/
def utf8DecodeL (bytes : List Nat) : List Char :=
  utf8DecodeLoop bytes 0 0 0x80 0xBF

/-- The byte-level chunk loop of `parseSSE` / `parseOpenAIStream`:
concatenate remainder bytes and chunk, decode, split, process the
complete lines, re-encode the final decoded segment as the new
remainder. -/
def framerRunBytes {E : Type} (handle : List Char → List E) :
    List Nat → List (List Nat) → List E
  | _, [] => []
  | leftover, c :: cs =>
    let segs := splitNl (utf8DecodeL (leftover ++ c))
    (segs.dropLast).flatMap handle ++
      framerRunBytes handle (utf8EncodeL (segs.getLastD [])) cs

/-- `parseSSE` on byte chunks. -/
def parseSSEBytesL (chunks : List (List Nat)) : List FrameEvent :=
  framerRunBytes handleSSELineL [] chunks

/-- `parseOpenAIStream` on byte chunks. -/
def parseOpenAIBytesL (chunks : List (List Nat)) : List FrameEvent :=
  framerRunBytes handleOpenAILineL [] chunks

theorem char_valid_ranges (c : Char) :
    c.toNat < 0xD800 ∨ (0xDFFF < c.toNat ∧ c.toNat < 0x110000) :=
  c.valid

theorem utf8EncodeL_append (a b : List Char) :
    utf8EncodeL (a ++ b) = utf8EncodeL a ++ utf8EncodeL b := by
  simp [utf8EncodeL]

theorem utf8DecodeLoop_start_ascii (b : Nat) (rest : List Nat) (c : Char)
    (h : utf8Classify b = .ascii c) :
    utf8DecodeLoop (b :: rest) 0 0 0x80 0xBF = c :: utf8DecodeLoop rest 0 0 0x80 0xBF := by
  simp only [utf8DecodeLoop]
  rw [if_pos trivial, h]

theorem utf8DecodeLoop_start_seq (b : Nat) (rest : List Nat) (cp2 n2 lo2 up2 : Nat)
    (h : utf8Classify b = .seq cp2 n2 lo2 up2) :
    utf8DecodeLoop (b :: rest) 0 0 0x80 0xBF = utf8DecodeLoop rest cp2 n2 lo2 up2 := by
  simp only [utf8DecodeLoop]
  rw [if_pos trivial, h]

theorem utf8DecodeLoop_contd_mid (b : Nat) (rest : List Nat) (cp needed lower upper : Nat)
    (hne : needed ≠ 0) (hone : needed ≠ 1) (hin : lower ≤ b ∧ b ≤ upper) :
    utf8DecodeLoop (b :: rest) cp needed lower upper =
      utf8DecodeLoop rest (cp * 64 + (b - 0x80)) (needed - 1) 0x80 0xBF := by
  simp only [utf8DecodeLoop]
  rw [if_neg hne, if_pos hin, if_neg hone]

theorem utf8DecodeLoop_contd_last (b : Nat) (rest : List Nat) (cp lower upper : Nat)
    (hin : lower ≤ b ∧ b ≤ upper) :
    utf8DecodeLoop (b :: rest) cp 1 lower upper =
      Char.ofNat (cp * 64 + (b - 0x80)) :: utf8DecodeLoop rest 0 0 0x80 0xBF := by
  simp only [utf8DecodeLoop]
  rw [if_neg (by omega : (1 : Nat) ≠ 0), if_pos hin, if_pos trivial]

/-- Decoding consumes one well-formed encoded character exactly. -/
theorem utf8DecodeLoop_encodeChar (c : Char) (bs : List Nat) :
    utf8DecodeLoop (utf8EncodeChar c ++ bs) 0 0 0x80 0xBF =
      c :: utf8DecodeLoop bs 0 0 0x80 0xBF := by
  have hv := char_valid_ranges c
  have hofn := Char.ofNat_toNat c
  by_cases h1 : c.toNat ≤ 0x7F
  · have henc : utf8EncodeChar c = [c.toNat] := by
      simp only [utf8EncodeChar]
      rw [if_pos h1]
    rw [henc, List.singleton_append]
    rw [utf8DecodeLoop_start_ascii _ _ (Char.ofNat c.toNat)
      (by unfold utf8Classify; rw [if_pos h1]), hofn]
  · by_cases h2 : c.toNat ≤ 0x7FF
    · have henc : utf8EncodeChar c = [0xC0 + c.toNat / 64, 0x80 + c.toNat % 64] := by
        simp only [utf8EncodeChar]
        rw [if_neg h1, if_pos h2]
      rw [henc, List.cons_append, List.singleton_append]
      rw [utf8DecodeLoop_start_seq _ _ (0xC0 + c.toNat / 64 - 0xC0) 1 0x80 0xBF
        (by unfold utf8Classify; rw [if_neg (by omega), if_pos (by omega)])]
      rw [utf8DecodeLoop_contd_last _ _ _ _ _ ⟨by omega, by omega⟩]
      have harith : (0xC0 + c.toNat / 64 - 0xC0) * 64 + (0x80 + c.toNat % 64 - 0x80) =
          c.toNat := by omega
      rw [harith, hofn]
    · by_cases h3 : c.toNat ≤ 0xFFFF
      · have henc : utf8EncodeChar c =
            [0xE0 + c.toNat / 4096, 0x80 + (c.toNat / 64) % 64, 0x80 + c.toNat % 64] := by
          simp only [utf8EncodeChar]
          rw [if_neg h1, if_neg h2, if_pos h3]
        rw [henc, List.cons_append, List.cons_append, List.singleton_append]
        have hcl : ∃ lo up, utf8Classify (0xE0 + c.toNat / 4096) =
            .seq (0xE0 + c.toNat / 4096 - 0xE0) 2 lo up ∧
            lo ≤ 0x80 + (c.toNat / 64) % 64 ∧ 0x80 + (c.toNat / 64) % 64 ≤ up := by
          unfold utf8Classify
          by_cases he0 : 0xE0 + c.toNat / 4096 = 0xE0
          · refine ⟨0xA0, 0xBF, ?_, by omega, by omega⟩
            rw [if_neg (by omega), if_neg (by omega), if_pos he0]
            have h0 : c.toNat / 4096 = 0 := by omega
            rw [h0]
          · by_cases hed : 0xE0 + c.toNat / 4096 = 0xED
            · refine ⟨0x80, 0x9F, ?_, by omega, ?_⟩
              · rw [if_neg (by omega), if_neg (by omega), if_neg he0, if_neg (by omega),
                  if_pos hed]
                have h0 : c.toNat / 4096 = 0xD := by omega
                rw [h0]
              · rcases hv with hlt | ⟨hgt, _⟩ <;> omega
            · by_cases hec : 0xE0 + c.toNat / 4096 ≤ 0xEC
              · refine ⟨0x80, 0xBF, ?_, by omega, by omega⟩
                rw [if_neg (by omega), if_neg (by omega), if_neg he0, if_pos (by omega)]
              · refine ⟨0x80, 0xBF, ?_, by omega, by omega⟩
                rw [if_neg (by omega), if_neg (by omega), if_neg he0, if_neg (by omega),
                  if_neg hed, if_pos (by omega)]
        obtain ⟨lo, up, hcl, hlo, hup⟩ := hcl
        rw [utf8DecodeLoop_start_seq _ _ _ _ _ _ hcl]
        rw [utf8DecodeLoop_contd_mid _ _ _ _ _ _ (by omega) (by omega) ⟨hlo, hup⟩]
        rw [utf8DecodeLoop_contd_last _ _ _ _ _ ⟨by omega, by omega⟩]
        have harith : ((0xE0 + c.toNat / 4096 - 0xE0) * 64 +
            (0x80 + (c.toNat / 64) % 64 - 0x80)) * 64 +
            (0x80 + c.toNat % 64 - 0x80) = c.toNat := by omega
        rw [harith, hofn]
      · have h4 : c.toNat < 0x110000 := by
          rcases hv with hlt | ⟨_, hub⟩ <;> omega
        have henc : utf8EncodeChar c =
            [0xF0 + c.toNat / 262144, 0x80 + (c.toNat / 4096) % 64,
             0x80 + (c.toNat / 64) % 64, 0x80 + c.toNat % 64] := by
          simp only [utf8EncodeChar]
          rw [if_neg h1, if_neg h2, if_neg h3]
        rw [henc, List.cons_append, List.cons_append, List.cons_append,
          List.singleton_append]
        have hcl : ∃ lo up, utf8Classify (0xF0 + c.toNat / 262144) =
            .seq (0xF0 + c.toNat / 262144 - 0xF0) 3 lo up ∧
            lo ≤ 0x80 + (c.toNat / 4096) % 64 ∧ 0x80 + (c.toNat / 4096) % 64 ≤ up := by
          unfold utf8Classify
          by_cases hf0 : 0xF0 + c.toNat / 262144 = 0xF0
          · refine ⟨0x90, 0xBF, ?_, by omega, by omega⟩
            rw [if_neg (by omega), if_neg (by omega), if_neg (by omega), if_neg (by omega),
              if_neg (by omega), if_neg (by omega), if_pos hf0]
            have h0 : c.toNat / 262144 = 0 := by omega
            rw [h0]
          · by_cases hf4 : 0xF0 + c.toNat / 262144 = 0xF4
            · refine ⟨0x80, 0x8F, ?_, by omega, by omega⟩
              rw [if_neg (by omega), if_neg (by omega), if_neg (by omega),
                if_neg (by omega), if_neg (by omega), if_neg (by omega), if_neg hf0,
                if_neg (by omega), if_pos hf4]
              have h0 : c.toNat / 262144 = 4 := by omega
              rw [h0]
            · refine ⟨0x80, 0xBF, ?_, by omega, by omega⟩
              rw [if_neg (by omega), if_neg (by omega), if_neg (by omega), if_neg (by omega),
                if_neg (by omega), if_neg (by omega), if_neg hf0, if_pos (by omega)]
        obtain ⟨lo, up, hcl, hlo, hup⟩ := hcl
        rw [utf8DecodeLoop_start_seq _ _ _ _ _ _ hcl]
        rw [utf8DecodeLoop_contd_mid _ _ _ _ _ _ (by omega) (by omega) ⟨hlo, hup⟩]
        rw [show (3 : Nat) - 1 = 2 from rfl]
        rw [utf8DecodeLoop_contd_mid _ _ _ _ _ _ (by omega) (by omega) ⟨by omega, by omega⟩]
        rw [show (2 : Nat) - 1 = 1 from rfl]
        rw [utf8DecodeLoop_contd_last _ _ _ _ _ ⟨by omega, by omega⟩]
        have harith : (((0xF0 + c.toNat / 262144 - 0xF0) * 64 +
            (0x80 + (c.toNat / 4096) % 64 - 0x80)) * 64 +
            (0x80 + (c.toNat / 64) % 64 - 0x80)) * 64 +
            (0x80 + c.toNat % 64 - 0x80) = c.toNat := by omega
        rw [harith, hofn]

/-- Decoding inverts encoding, with the tail preserved. -/
theorem utf8DecodeLoop_encodeL (s : List Char) (bs : List Nat) :
    utf8DecodeLoop (utf8EncodeL s ++ bs) 0 0 0x80 0xBF =
      s ++ utf8DecodeLoop bs 0 0 0x80 0xBF := by
  induction s with
  | nil => simp [utf8EncodeL]
  | cons c rest ih =>
    have : utf8EncodeL (c :: rest) = utf8EncodeChar c ++ utf8EncodeL rest := by
      simp [utf8EncodeL]
    rw [this, List.append_assoc, utf8DecodeLoop_encodeChar, ih]
    rfl

theorem utf8DecodeL_encodeL (s : List Char) : utf8DecodeL (utf8EncodeL s) = s := by
  have h := utf8DecodeLoop_encodeL s []
  simpa [utf8DecodeL, utf8DecodeLoop] using h

/-- On chunk lists whose boundaries respect character boundaries, the
byte-level loop computes exactly the character-level loop. -/
theorem framerRunBytes_encode {E : Type} (handle : List Char → List E) :
    ∀ (cs : List (List Char)) (l : List Char),
      framerRunBytes handle (utf8EncodeL l) (cs.map utf8EncodeL) =
        framerRun handle l cs := by
  intro cs
  induction cs with
  | nil => intro l; rfl
  | cons c cs ih =>
    intro l
    simp only [List.map_cons, framerRunBytes, framerRun]
    rw [← utf8EncodeL_append, utf8DecodeL_encodeL]
    rw [ih]

/-- C4 counterexample: the claim as stated quantifies over all byte
partitions, and fails on one that splits the two-byte character é
(`0xC3 0xA9`) inside a JSON string literal: the per-chunk decode turns
the dangling `0xC3` into U+FFFD, the remainder is re-encoded, and the
stray `0xA9` of the next chunk becomes a second U+FFFD, so the client
receives a frame carrying two replacement characters instead of é —
a different frame list than single-chunk delivery of the same bytes. -/
theorem C4_byte_split_counterexample :
    parseSSEBytesL [utf8EncodeL ("data: \x7b\"text\":\"".data) ++ [0xC3],
        0xA9 :: utf8EncodeL ("\"\x7d\n".data)] =
      [.ev (.obj [("text", .str (String.mk [replChar, replChar]))])] ∧
    parseSSEBytesL [(utf8EncodeL ("data: \x7b\"text\":\"".data) ++ [0xC3]) ++
        (0xA9 :: utf8EncodeL ("\"\x7d\n".data))] =
      [.ev (.obj [("text", .str "é")])] ∧
    parseOpenAIBytesL [utf8EncodeL ("data: \x7b\"text\":\"".data) ++ [0xC3],
        0xA9 :: utf8EncodeL ("\"\x7d\n".data)] =
      [.ev (.obj [("text", .str (String.mk [replChar, replChar]))])] ∧
    parseOpenAIBytesL [(utf8EncodeL ("data: \x7b\"text\":\"".data) ++ [0xC3]) ++
        (0xA9 :: utf8EncodeL ("\"\x7d\n".data))] =
      [.ev (.obj [("text", .str "é")])] ∧
    String.mk [replChar, replChar] ≠ "é" :=
  ⟨rfl, rfl, rfl, rfl, by decide⟩

/-- C4 (amended): for every frame sequence and every partition of its
bytes into transport chunks whose boundaries fall on UTF-8 character
boundaries (equivalently: every partition of the character sequence,
including splits inside a JSON literal), `parseSSE` and
`parseOpenAIStream` yield the identical ordered list of frames as when
the same bytes are delivered as a single chunk.  As `cs` ranges over
all character-chunk lists, `cs.map utf8EncodeL` ranges over exactly the
character-boundary byte partitions of `utf8EncodeL (joinChunks cs)`. -/
theorem C4_framing_charBoundary_invariance (cs : List (List Char)) :
    parseSSEBytesL (cs.map utf8EncodeL) =
      parseSSEBytesL [utf8EncodeL (joinChunks cs)] ∧
    parseOpenAIBytesL (cs.map utf8EncodeL) =
      parseOpenAIBytesL [utf8EncodeL (joinChunks cs)] := by
  constructor
  · calc parseSSEBytesL (cs.map utf8EncodeL)
        = framerRun handleSSELineL [] cs := framerRunBytes_encode handleSSELineL cs []
      _ = framerRun handleSSELineL [] [joinChunks cs] := framerRun_join handleSSELineL cs
      _ = parseSSEBytesL [utf8EncodeL (joinChunks cs)] :=
          (framerRunBytes_encode handleSSELineL [joinChunks cs] []).symm
  · calc parseOpenAIBytesL (cs.map utf8EncodeL)
        = framerRun handleOpenAILineL [] cs := framerRunBytes_encode handleOpenAILineL cs []
      _ = framerRun handleOpenAILineL [] [joinChunks cs] :=
          framerRun_join handleOpenAILineL cs
      _ = parseOpenAIBytesL [utf8EncodeL (joinChunks cs)] :=
          (framerRunBytes_encode handleOpenAILineL [joinChunks cs] []).symm

/-! ## Claim C5: malformed JSON frames -/

theorem jsTrim_eq_nil_iff (s : List Char) : jsTrim s = [] ↔ ∀ c ∈ s, isTrimWs c := by
  constructor
  · intro h c hc
    by_contra hcw
    have hsub : ∀ x ∈ s.dropWhile isTrimWs, x ∈ s := fun x hx =>
      List.dropWhile_subset _ hx
    have h1 : s.dropWhile isTrimWs ≠ [] := by
      intro he
      rw [List.dropWhile_eq_nil_iff] at he
      exact hcw (he c hc)
    have h2 : (s.dropWhile isTrimWs).reverse.dropWhile isTrimWs = [] := by
      have := congrArg List.reverse h
      simpa [jsTrim] using this
    rw [List.dropWhile_eq_nil_iff] at h2
    have hc2 : c ∈ s.dropWhile isTrimWs ∨ c ∈ s.takeWhile isTrimWs := by
      have := List.takeWhile_append_dropWhile (p := isTrimWs) (l := s)
      rw [← this] at hc
      rcases List.mem_append.mp hc with h | h
      · exact Or.inr h
      · exact Or.inl h
    rcases hc2 with h | h
    · exact hcw (h2 c (List.mem_reverse.mpr h))
    · exact hcw (List.mem_takeWhile_imp h)
  · intro h
    have h1 : s.dropWhile isTrimWs = [] :=
      List.dropWhile_eq_nil_iff.mpr h
    simp [jsTrim, h1]

theorem handleSSELineL_invalid (line : List Char)
    (hpre : dataPrefix.isPrefixOf line = true)
    (hdone : jsTrim (line.drop 6) ≠ doneLit)
    (hbad : jsonParseL (line.drop 6) = none) :
    handleSSELineL line = [] := by
  have hd : 'd' ∈ line := by
    rcases List.isPrefixOf_iff_prefix.mp hpre with ⟨t, ht⟩
    rw [← ht]
    simp [dataPrefix]
  have hne : jsTrim line ≠ [] := by
    intro he
    have hall := (jsTrim_eq_nil_iff line).mp he
    have := hall 'd' hd
    simp [isTrimWs] at this
  simp [handleSSELineL, hne, hpre, hdone, hbad]

/-- C5 (amended): a frame whose `data: ` payload is not valid JSON is
silently skipped by the framer (it contributes no event), and processing
continues: the surrounding frames produce exactly the events they would
produce without the malformed frame.  The skip is not fatal to the
stream. -/
theorem C5_malformed_frame_skipped (pre post : List (List Char)) (line : List Char)
    (hpre : dataPrefix.isPrefixOf line = true)
    (hdone : jsTrim (line.drop 6) ≠ doneLit)
    (hbad : jsonParseL (line.drop 6) = none) :
    handleSSELineL line = [] ∧
    sseLineEvents (pre ++ line :: post) = sseLineEvents (pre ++ post) := by
  have h0 := handleSSELineL_invalid line hpre hdone hbad
  refine ⟨h0, ?_⟩
  simp [sseLineEvents, h0]

/-- Witness for `C5_malformed_frame_skipped` at the concrete malformed
frame `data: hello` followed by the `[DONE]` frame. -/
theorem C5_malformed_frame_skipped_witness :
    handleSSELineL "data: hello".data = [] ∧
    sseLineEvents ([] ++ "data: hello".data :: ["data: [DONE]".data]) =
      sseLineEvents ([] ++ ["data: [DONE]".data]) :=
  C5_malformed_frame_skipped [] ["data: [DONE]".data] "data: hello".data
    (by decide) (by decide) rfl

/-- C5 counterexample: the claim as stated is false on the code.  For the
concrete chunk carrying the malformed frame `data: hello`, `parseSSE`
emits no event at all for that frame (it is silently dropped), whereas
the spec-shaped adapter surfaces it as `Unknown(raw)`. -/
theorem C5_malformed_frame_dropped_counterexample :
    parseSSEChunksL ["data: hello\ndata: [DONE]\n".data] = [.done] ∧
    parseSSESpecChunksL ["data: hello\ndata: [DONE]\n".data] =
      [.unknown "hello".data, .done] :=
  ⟨rfl, rfl⟩

/-! ## Action Executor (`performGoogleSearch`)

Two variants exist in the source: the MCP server
(`src/lib/mcp-servers/googlesearch/mcp-server/index.js`, lines 28-66),
which guards the fetch with a 10 s `AbortController` timer, and the
standalone module (`src/utils/standalone-googlesearch/search-google.js`,
lines 7-52), which has no timeout.  Both variants throw on failure; they
never return a result object carrying an error field.  The provider
interaction is modelled as a response value: `timeout` is the
`AbortError` raised by the 10 s timer, and `http` carries the status,
status text, and body of a completed response. -/

/-- `SEARCH_TIMEOUT` from the MCP server, in milliseconds. -/
def SEARCH_TIMEOUT : Nat := 10000

/-- The `num` URL parameter sent to the provider: `Math.min(numResults, 10)`
(both variants). -/
def googleNumParam (numResults : Nat) : Nat :=
  min numResults 10

inductive ProviderResponse where
  | timeout
  | http (status : Nat) (statusText : String) (body : String)

/-- `response.ok` of `fetch`: status in the 2xx range. -/
def isOkStatus (status : Nat) : Bool :=
  200 ≤ status && status ≤ 299

/-- Exceptions thrown by the executors.  `timeoutErr` is
`Error('Search timeout')`; `httpErr s t` is `` Error(`HTTP ${s}: ${t}`) ``
(MCP variant); `apiErr s t b` is
`` Error(`Google Search API error: ${s} ${t} - ${b}`) `` (standalone
variant, which carries the response body); `jsonErr` is the runtime
`SyntaxError` rethrown when `response.json()` fails on a 2xx response. -/
inductive SearchError where
  | timeoutErr
  | httpErr (status : Nat) (statusText : String)
  | apiErr (status : Nat) (statusText : String) (body : String)
  | jsonErr

/-- One mapped result item (`{title, link, snippet}` projected from a
provider item; absent fields are `undefined` in the source). -/
structure McpItem where
  title : Option JsonValue
  link : Option JsonValue
  snippet : Option JsonValue

/-- Result of the MCP `performGoogleSearch` on success. -/
structure McpResult where
  query : String
  results : List McpItem
  totalResults : JsonValue
  searchTime : JsonValue

/-- `data.items || []` restricted to the array case; the searches
considered never return a truthy non-array `items` field (on which the
source's `.map` would throw a `TypeError`). -/
def itemsOf (data : JsonValue) : List JsonValue :=
  match lookupField data "items" with
  | some (.arr xs) => xs
  | _ => []

/-- `data.searchInformation?.totalResults || '0'`. -/
def totalResultsOf (data : JsonValue) : JsonValue :=
  match lookupField data "searchInformation" with
  | some info =>
    (match lookupField info "totalResults" with
     | some v => v
     | none => .str "0")
  | none => .str "0"

/-- `data.searchInformation?.searchTime || 0`. -/
def searchTimeOf (data : JsonValue) : JsonValue :=
  match lookupField data "searchInformation" with
  | some info =>
    (match lookupField info "searchTime" with
     | some v => v
     | none => .num "0")
  | none => .num "0"

/-- The MCP-server `performGoogleSearch` (index.js lines 28-66): abort
after 10 s throws `Search timeout`; a non-2xx response throws
`HTTP status: statusText`; a 2xx response is JSON-parsed and its items
mapped.  Exactly one provider call is consumed per invocation. -/
def performGoogleSearchMCP (query : String) (numResults : Nat)
    (resp : ProviderResponse) : Except SearchError McpResult :=
  match resp with
  | .timeout => .error .timeoutErr
  | .http status statusText body =>
    if isOkStatus status then
      match jsonParse body with
      | none => .error .jsonErr
      | some data =>
        .ok { query := query
              results := (itemsOf data).map (fun item =>
                { title := lookupField item "title"
                  link := lookupField item "link"
                  snippet := lookupField item "snippet" })
              totalResults := totalResultsOf data
              searchTime := searchTimeOf data }
    else .error (.httpErr status statusText)

/-- One mapped standalone result item (`{title, link, snippet, index}`
with `index = i + 1`). -/
structure StandaloneItem where
  title : Option JsonValue
  link : Option JsonValue
  snippet : Option JsonValue
  index : Nat

/-- Result of the standalone `performGoogleSearch` on success.
`totalTimeRaw` is the argument the source passes to `parseFloat`
(float semantics are out of scope; no claim inspects the value). -/
structure StandaloneResult where
  query : String
  results : List StandaloneItem
  totalTimeRaw : Option JsonValue

/-- The standalone `performGoogleSearch` (search-google.js lines 7-52):
no timeout exists; a non-2xx response throws
`Google Search API error: status statusText - body`; a missing `items`
field yields an empty result list with `totalTime` 0. -/
def performGoogleSearchStandalone (query : String) (numResults : Nat)
    (status : Nat) (statusText body : String) : Except SearchError StandaloneResult :=
  if isOkStatus status then
    match jsonParse body with
    | none => .error .jsonErr
    | some data =>
      match lookupField data "items" with
      | some (.arr xs) =>
        .ok { query := query
              results := xs.enum.map (fun p =>
                { title := lookupField p.2 "title"
                  link := lookupField p.2 "link"
                  snippet := lookupField p.2 "snippet"
                  index := p.1 + 1 })
              totalTimeRaw := some (searchTimeOf data) }
      | _ => .ok { query := query, results := [], totalTimeRaw := none }
  else .error (.apiErr status statusText body)

/-- Modelled from the spec's words (§4.4), for contrast with the code: an
`ActionResult` record whose `error` field is set on failure ("On timeout,
returns an ActionResult with error = timeout and an empty item list. On
non-2xx upstream response, returns error carrying the status and
body."). -/
structure ActionResult where
  query : String
  items : List McpItem
  error : Option String

/-- Spec-shaped executor (never throws; failures populate `error`). -/
def performGoogleSearchSpecShape (query : String) (resp : ProviderResponse) : ActionResult :=
  match resp with
  | .timeout => { query := query, items := [], error := some "timeout" }
  | .http status statusText body =>
    if isOkStatus status then
      match jsonParse body with
      | none => { query := query, items := [], error := some statusText }
      | some data =>
        { query := query
          items := (itemsOf data).map (fun item =>
            { title := lookupField item "title"
              link := lookupField item "link"
              snippet := lookupField item "snippet" })
          error := none }
    else
      { query := query, items := [],
        error := some (toString status ++ " " ++ statusText ++ " - " ++ body) }

/-- C6 counterexample: the executors throw (return `Except.error`) on
timeout and non-2xx responses; they do not return an `ActionResult`
carrying an error field as the claim states (contrast with the
spec-shaped executor in the last conjunct). -/
theorem C6_exception_not_result_counterexample :
    performGoogleSearchMCP "test" 10 .timeout = .error .timeoutErr ∧
    (performGoogleSearchMCP "test" 10 .timeout).isOk = false ∧
    performGoogleSearchMCP "test" 10 (.http 500 "Internal Server Error" "boom") =
      .error (.httpErr 500 "Internal Server Error") ∧
    (performGoogleSearchMCP "test" 10 (.http 500 "Internal Server Error" "boom")).isOk
      = false ∧
    (performGoogleSearchSpecShape "test" .timeout).error = some "timeout" :=
  ⟨rfl, rfl, rfl, rfl, rfl⟩

/-- C6 (amended): every failure propagates as an exception to the caller
rather than as a result with an error field: in the MCP variant the call
is guarded by the 10 s timer and timeout raises `Search timeout`, and a
non-2xx response raises an error carrying the status and status text; in
the standalone variant (which has no timeout) a non-2xx response raises
an error carrying the status, status text and body.  Each invocation
consumes exactly one provider response; there is no retry. -/
theorem C6_failure_exception_semantics (query : String) (numResults : Nat)
    (status : Nat) (statusText body : String) (h : isOkStatus status = false) :
    performGoogleSearchMCP query numResults .timeout = .error .timeoutErr ∧
    performGoogleSearchMCP query numResults (.http status statusText body) =
      .error (.httpErr status statusText) ∧
    performGoogleSearchStandalone query numResults status statusText body =
      .error (.apiErr status statusText body) := by
  refine ⟨rfl, ?_, ?_⟩ <;>
    simp [performGoogleSearchMCP, performGoogleSearchStandalone, h]

/-- Witness for `C6_failure_exception_semantics` at status 500. -/
theorem C6_failure_exception_semantics_witness :
    performGoogleSearchMCP "q" 5 .timeout = .error .timeoutErr ∧
    performGoogleSearchMCP "q" 5 (.http 500 "ISE" "err") = .error (.httpErr 500 "ISE") ∧
    performGoogleSearchStandalone "q" 5 500 "ISE" "err" = .error (.apiErr 500 "ISE" "err") :=
  C6_failure_exception_semantics "q" 5 500 "ISE" "err" (by decide)

/-! ## Tool Registry / Request Rewriter

`injectGoogleSearchTool` exists in an Anthropic-format variant
(server.js lines 99-145, matching on `t.name`) and an OpenAI-format
variant (server-llamacpp.js lines 80-129, matching on
`t.function?.name`).  Tools are the parsed JSON objects of the request
body. -/

/-- `t.name` when it is a string (strict `===` comparison against a
string can only succeed on a string value). -/
def toolNameStr (t : JsonValue) : Option String :=
  match lookupField t "name" with
  | some (.str s) => some s
  | _ => none

/-- `t.function?.name` when it is a string. -/
def functionNameStr (t : JsonValue) : Option String :=
  match lookupField t "function" with
  | some f =>
    (match lookupField f "name" with
     | some (.str s) => some s
     | _ => none)
  | none => none

/-- The description text of the injected GoogleSearch tool (identical in
both variants). -/
def gsDescription : String :=
  "Search the internet using Google.\n\nCRITICAL: This tool is your ONLY access to real-time web data. Use it IMMEDIATELY when:\n- User asks to \"search\", \"find\", \"look up\" anything\n- User asks about \"latest\", \"recent\", \"current\", \"today\x27s\" information\n- User asks for news, events, or recent developments\n\nDO NOT answer from training data if user asks for current information.\nALWAYS use this tool for any web search request.\n\nInput: A search query string\nOutput: 5 current search results with titles, summaries, and URLs"

/-- The JSON schema object of the `query` parameter. -/
def gsQuerySchema : JsonValue :=
  .obj [("type", .str "object"),
        ("properties", .obj [("query",
          .obj [("type", .str "string"),
                ("description", .str "The search query to execute")])]),
        ("required", .arr [.str "query"])]

/-- The GoogleSearch tool in Anthropic format (server.js lines 118-142). -/
def gsToolJson : JsonValue :=
  .obj [("name", .str "GoogleSearch"),
        ("description", .str gsDescription),
        ("input_schema", gsQuerySchema)]

/-- The GoogleSearch tool in OpenAI format (server-llamacpp.js lines
99-126). -/
def gsToolOpenAIJson : JsonValue :=
  .obj [("type", .str "function"),
        ("function", .obj [("name", .str "GoogleSearch"),
                           ("description", .str gsDescription),
                           ("parameters", gsQuerySchema)])]

/-- Anthropic-format `injectGoogleSearchTool`: return the list unchanged
if a tool named GoogleSearch exists; otherwise remove WebSearch,
web_search, Task and Skill and prepend the GoogleSearch schema. -/
def injectGoogleSearchTool (tools : List JsonValue) : List JsonValue :=
  if tools.any (fun t => toolNameStr t == some "GoogleSearch") then tools
  else
    gsToolJson ::
      tools.filter (fun t =>
        !(toolNameStr t == some "WebSearch") && !(toolNameStr t == some "web_search") &&
        !(toolNameStr t == some "Task") && !(toolNameStr t == some "Skill"))

/-- OpenAI-format `injectGoogleSearchTool`: presence is checked on
`t.function?.name` or `t.name`; the competitor filter inspects only
`t.function?.name`. -/
def injectGoogleSearchToolOpenAI (tools : List JsonValue) : List JsonValue :=
  if tools.any (fun t =>
      functionNameStr t == some "GoogleSearch" || toolNameStr t == some "GoogleSearch") then
    tools
  else
    gsToolOpenAIJson ::
      tools.filter (fun t =>
        !(functionNameStr t == some "WebSearch") && !(functionNameStr t == some "web_search") &&
        !(functionNameStr t == some "Task") && !(functionNameStr t == some "Skill"))

theorem inject_has_gs (ts : List JsonValue) :
    (injectGoogleSearchTool ts).any (fun t => toolNameStr t == some "GoogleSearch") = true := by
  unfold injectGoogleSearchTool
  split
  · assumption
  · simp [toolNameStr, gsToolJson, lookupField, lookupPairs]

theorem inject_openai_has_gs (ts : List JsonValue) :
    (injectGoogleSearchToolOpenAI ts).any (fun t =>
      functionNameStr t == some "GoogleSearch" || toolNameStr t == some "GoogleSearch") = true := by
  unfold injectGoogleSearchToolOpenAI
  split
  · assumption
  · simp [functionNameStr, gsToolOpenAIJson, lookupField, lookupPairs]

/-- C8 counterexample: when a tool named GoogleSearch is already present
the rewriter returns its input unchanged, so a competing WebSearch tool
survives one application, refuting "one application yields a list that
contains no competing search tool named WebSearch". -/
theorem C8_competitor_survives_counterexample :
    injectGoogleSearchTool
        [.obj [("name", .str "GoogleSearch")], .obj [("name", .str "WebSearch")]] =
      [.obj [("name", .str "GoogleSearch")], .obj [("name", .str "WebSearch")]] ∧
    toolNameStr (.obj [("name", .str "WebSearch")]) = some "WebSearch" :=
  ⟨rfl, rfl⟩

/-- C8 (amended): applying the rewriter twice returns the first result
unchanged (idempotence, both variants), and when no tool named
GoogleSearch is present already, one application yields a list that
contains the GoogleSearch schema and no tool named WebSearch or
web_search (competitors are removed only on the application that inserts
the schema). -/
theorem C8_inject_idempotent_and_removal (ts : List JsonValue) :
    injectGoogleSearchTool (injectGoogleSearchTool ts) = injectGoogleSearchTool ts ∧
    injectGoogleSearchToolOpenAI (injectGoogleSearchToolOpenAI ts) =
      injectGoogleSearchToolOpenAI ts ∧
    (ts.any (fun t => toolNameStr t == some "GoogleSearch") = false →
      gsToolJson ∈ injectGoogleSearchTool ts ∧
      ∀ t ∈ injectGoogleSearchTool ts,
        toolNameStr t ≠ some "WebSearch" ∧ toolNameStr t ≠ some "web_search") := by
  refine ⟨?_, ?_, ?_⟩
  · have h := inject_has_gs ts
    conv_lhs => rw [injectGoogleSearchTool.eq_def]
    simp [h]
  · have h := inject_openai_has_gs ts
    conv_lhs => rw [injectGoogleSearchToolOpenAI.eq_def]
    simp [h]
  · intro hno
    unfold injectGoogleSearchTool
    rw [if_neg (by simp [hno])]
    constructor
    · exact List.mem_cons_self _ _
    · intro t ht
      rcases List.mem_cons.mp ht with h | h
      · subst h
        constructor <;> simp [toolNameStr, gsToolJson, lookupField, lookupPairs]
      · have hp := (List.mem_filter.mp h).2
        simp only [Bool.and_eq_true, Bool.not_eq_true', beq_eq_false_iff_ne] at hp
        exact ⟨hp.1.1.1, hp.1.1.2⟩

/-- Witness for `C8_inject_idempotent_and_removal` at a tool list holding
only a WebSearch tool. -/
theorem C8_inject_idempotent_and_removal_witness :
    injectGoogleSearchTool (injectGoogleSearchTool [.obj [("name", .str "WebSearch")]]) =
      injectGoogleSearchTool [.obj [("name", .str "WebSearch")]] ∧
    gsToolJson ∈ injectGoogleSearchTool [.obj [("name", .str "WebSearch")]] ∧
    ∀ t ∈ injectGoogleSearchTool [.obj [("name", .str "WebSearch")]],
      toolNameStr t ≠ some "WebSearch" ∧ toolNameStr t ≠ some "web_search" := by
  have h := C8_inject_idempotent_and_removal [.obj [("name", .str "WebSearch")]]
  exact ⟨h.1, (h.2.2 (by rfl)).1, (h.2.2 (by rfl)).2⟩

/-! ## processRequest and the inbound request handler

Three `processRequest` variants exist; all catch their own JSON parse
errors and return the body unchanged, and the request handlers always
forward `modifiedBody` upstream.  The keyword classifier
(`isSearchQuery`) of server.js affects only logging there and is
omitted; in the second streaming server it selects an additional tool
filter and is taken as a parameter (its regular expression is irrelevant
to every claim below, which hold for all classifier outcomes). -/

/-- `data.messages` exists and is an array. -/
def hasMessagesArray (d : JsonValue) : Bool :=
  match lookupField d "messages" with
  | some (.arr _) => true
  | _ => false

/-- `processRequest` of server.js (lines 150-192): parse, require a
`messages` array, rewrite `tools` when it is an array, reserialize. -/
def processRequestSrv (body : String) : Bool × String :=
  match jsonParse body with
  | none => (false, body)
  | some data =>
    match lookupField data "messages" with
    | some (.arr _) =>
      (match lookupField data "tools" with
       | some (.arr ts) =>
         (true, jsonStringify (setField data "tools" (.arr (injectGoogleSearchTool ts))))
       | _ => (true, jsonStringify data))
    | _ => (false, body)

/-- `processRequest` of the enhanced streaming server (combined file
lines 715-753): as `processRequestSrv`, but when the classifier marks
the request as a search query, WebFetch, EnterPlanMode and ExitPlanMode
are additionally removed from the rewritten tool list, and the modified
flag is `length changed or classifier fired`. -/
def v2FilteredTools (isSearch : List JsonValue → Bool) (msgs : List JsonValue)
    (ts : List JsonValue) : List JsonValue :=
  let ts1 := injectGoogleSearchTool ts
  if (!(ts1.length == ts.length) || isSearch msgs) && isSearch msgs then
    ts1.filter (fun t =>
      !(toolNameStr t == some "WebFetch") &&
      !(toolNameStr t == some "EnterPlanMode") &&
      !(toolNameStr t == some "ExitPlanMode"))
  else ts1

def processRequestV2 (isSearch : List JsonValue → Bool) (body : String) : Bool × String :=
  match jsonParse body with
  | none => (false, body)
  | some data =>
    match lookupField data "messages" with
    | some (.arr msgs) =>
      (match lookupField data "tools" with
       | some (.arr ts) =>
         ((!((injectGoogleSearchTool ts).length == ts.length) || isSearch msgs),
          jsonStringify (setField data "tools" (.arr (v2FilteredTools isSearch msgs ts))))
       | _ => (false, jsonStringify data))
    | _ => (false, body)

/-- `processRequest` of the llama.cpp proxy (combined file lines
134-161): OpenAI-format injection, no classifier. -/
def processRequestLlama (body : String) : Bool × String :=
  match jsonParse body with
  | none => (false, body)
  | some data =>
    match lookupField data "messages" with
    | some (.arr _) =>
      (match lookupField data "tools" with
       | some (.arr ts) =>
         let ts1 := injectGoogleSearchToolOpenAI ts
         (!(ts1.length == ts.length), jsonStringify (setField data "tools" (.arr ts1)))
       | _ => (false, jsonStringify data))
    | _ => (false, body)

/-- What the server.js request handler does with an inbound body before
any upstream interaction: there is no rejection path, the handler always
builds the upstream request around `processRequest`'s `modifiedBody`
(server.js lines 214-255). -/
inductive ProxyDecision where
  | forward (body : String)
  | reject400
deriving DecidableEq

/-- The server.js inbound handler outcome for a request body. -/
def handleInboundSrv (body : String) : ProxyDecision :=
  .forward (processRequestSrv body).2

/-- C7 counterexample: a body that is not valid JSON is forwarded
upstream byte-for-byte, and no 400-equivalent rejection happens before
the upstream call. -/
theorem C7_malformed_body_forwarded_counterexample :
    handleInboundSrv "notjson" = .forward "notjson" ∧
    handleInboundSrv "notjson" ≠ .reject400 :=
  ⟨rfl, by decide⟩

/-- C7 (amended): an inbound body that is not valid JSON is not rejected:
`processRequest` catches its own parse error and returns the body
unchanged, and the proxy forwards that body to the upstream backend.  A
400-equivalent response arises only when the handler itself throws, not
from malformed request JSON. -/
theorem C7_malformed_body_passthrough (body : String) (h : jsonParse body = none) :
    handleInboundSrv body = .forward body ∧ processRequestSrv body = (false, body) := by
  simp [handleInboundSrv, processRequestSrv, h]

/-- Witness for `C7_malformed_body_passthrough` at the body `notjson!`. -/
theorem C7_malformed_body_passthrough_witness :
    handleInboundSrv "notjson!" = .forward "notjson!" ∧
    processRequestSrv "notjson!" = (false, "notjson!") :=
  C7_malformed_body_passthrough "notjson!" rfl

/-- C10: every `processRequest` variant modifies at most the top-level
`tools` field of a forwarded body.  A body that is not valid JSON, or
whose parse lacks a `messages` array, is returned byte-for-byte
unchanged; otherwise the result is the reserialization of an object
whose every top-level field other than `tools` (the `messages` array
included) is the unchanged field of the parsed body. -/
theorem C10_process_request_frame (body : String) (isSearch : List JsonValue → Bool) :
    (jsonParse body = none →
      (processRequestSrv body).2 = body ∧
      (processRequestV2 isSearch body).2 = body ∧
      (processRequestLlama body).2 = body) ∧
    (∀ d, jsonParse body = some d → hasMessagesArray d = false →
      (processRequestSrv body).2 = body ∧
      (processRequestV2 isSearch body).2 = body ∧
      (processRequestLlama body).2 = body) ∧
    (∀ d, jsonParse body = some d → hasMessagesArray d = true →
      ∃ d1 d2 d3,
        (processRequestSrv body).2 = jsonStringify d1 ∧
        (processRequestV2 isSearch body).2 = jsonStringify d2 ∧
        (processRequestLlama body).2 = jsonStringify d3 ∧
        ∀ k, k ≠ "tools" →
          lookupField d1 k = lookupField d k ∧
          lookupField d2 k = lookupField d k ∧
          lookupField d3 k = lookupField d k) := by
  refine ⟨?_, ?_, ?_⟩
  · intro h
    simp [processRequestSrv, processRequestV2, processRequestLlama, h]
  · intro d hparse hmsg
    simp only [hasMessagesArray] at hmsg
    rcases hm : lookupField d "messages" with _ | v
    · simp [processRequestSrv, processRequestV2, processRequestLlama, hparse, hm]
    · cases v <;> simp_all [processRequestSrv, processRequestV2, processRequestLlama,
        hparse, hm]
  · intro d hparse hmsg
    simp only [hasMessagesArray] at hmsg
    rcases hm : lookupField d "messages" with _ | v
    · rw [hm] at hmsg
      simp at hmsg
    · cases v <;> rw [hm] at hmsg <;> try simp at hmsg
      rename_i msgs
      rcases ht : lookupField d "tools" with _ | tv
      · refine ⟨d, d, d, ?_⟩
        simp [processRequestSrv, processRequestV2, processRequestLlama, hparse, hm, ht]
      · cases tv
        case arr ts =>
          refine ⟨setField d "tools" (.arr (injectGoogleSearchTool ts)),
                  setField d "tools" (.arr (v2FilteredTools isSearch msgs ts)),
                  setField d "tools" (.arr (injectGoogleSearchToolOpenAI ts)),
                  ?_, ?_, ?_, ?_⟩
          · simp [processRequestSrv, hparse, hm, ht]
          · simp [processRequestV2, hparse, hm, ht]
          · simp [processRequestLlama, hparse, hm, ht]
          · intro k hk
            exact ⟨lookupField_setField_ne d "tools" k _ hk,
              lookupField_setField_ne d "tools" k _ hk,
              lookupField_setField_ne d "tools" k _ hk⟩
        all_goals
          refine ⟨d, d, d, ?_⟩
          simp [processRequestSrv, processRequestV2, processRequestLlama, hparse, hm, ht]

/-- Witness for `C10_process_request_frame`: the malformed body case and
the messages-array case at concrete bodies. -/
theorem C10_process_request_frame_witness :
    ((processRequestSrv "bad body").2 = "bad body" ∧
     (processRequestV2 (fun _ => false) "bad body").2 = "bad body" ∧
     (processRequestLlama "bad body").2 = "bad body") ∧
    (∃ d1 d2 d3,
      (processRequestSrv "\x7b\"messages\": [], \"stream\": true\x7d").2 = jsonStringify d1 ∧
      (processRequestV2 (fun _ => false) "\x7b\"messages\": [], \"stream\": true\x7d").2 =
        jsonStringify d2 ∧
      (processRequestLlama "\x7b\"messages\": [], \"stream\": true\x7d").2 = jsonStringify d3 ∧
      ∀ k, k ≠ "tools" →
        lookupField d1 k =
          lookupField (.obj [("messages", .arr []), ("stream", .bool true)]) k ∧
        lookupField d2 k =
          lookupField (.obj [("messages", .arr []), ("stream", .bool true)]) k ∧
        lookupField d3 k =
          lookupField (.obj [("messages", .arr []), ("stream", .bool true)]) k) :=
  ⟨(C10_process_request_frame "bad body" (fun _ => false)).1 rfl,
   (C10_process_request_frame "\x7b\"messages\": [], \"stream\": true\x7d"
      (fun _ => false)).2.2
     (.obj [("messages", .arr []), ("stream", .bool true)]) rfl rfl⟩

/-! ## Conversation Splicer: the streaming request handler

The SSE streaming handler of the enhanced proxy (combined
server-llamacpp.js file, lines 917-1306) is embedded as a recursive
function from a state record and the list of canonical upstream events
to the ordered list of client-visible actions.  The external search call
is an oracle `Nat → SearchOutcome` giving the outcome of the k-th
invocation (`err` is a thrown exception, as `performGoogleSearch` throws
on every failure).  The heuristic classifier `detectSearchInThinking` is
a parameter `detect` — the spec (§9) itself treats the intent classifier
as pluggable and its patterns as configuration; every theorem below
holds for all classifiers, and concrete instances are supplied where a
specific firing behaviour matters.  The continuation's upstream stream
is the parameter `fup`. -/

inductive SSEEvent where
  | done
  | blockStartToolUse (name : String) (id : String)
  | blockStartThinking (idx : Int)
  | thinkingDelta (t : String)
  | inputJsonDelta (pj : String)
  | textDelta (t : String)
  | blockStop
  | otherEv
deriving DecidableEq, Repr

structure SearchItem where
  title : String
  link : String
  snippet : String
deriving DecidableEq, Repr

/-- The outcome of one `performGoogleSearch` call as the handler sees
it: a result list, or a thrown error caught by the handler. -/
inductive SearchOutcome where
  | ok (items : List SearchItem)
  | err (msg : String)
deriving DecidableEq, Repr

def SearchOutcome.isOk : SearchOutcome → Bool
  | .ok _ => true
  | .err _ => false

/-- Which detection path invoked the Action Executor. -/
inductive Origin where
  | fromToolUse
  | fromThinking
deriving DecidableEq, Repr

/-- Client-visible actions of the handler, in emission order.  `fwd` is a
`res.write(formatSSEEvent(event))` of an upstream event; `notice` and
`noticeT` are the synthetic progress writes (text block index for the
explicit path, thinking index for the heuristic path); `search` records
one Action Executor invocation with its outcome; `continuation` records
the follow-up upstream request being issued (with the query and results
embedded in its synthetic turns); `fwdFollowUp` forwards one event of
the continuation's stream; `writeDone` is `res.write('data: [DONE]')`. -/
inductive OutAction where
  | fwd (e : SSEEvent)
  | notice (idx : Nat) (text : String)
  | noticeT (idx : Int) (text : String)
  | search (origin : Origin) (q : String) (outcome : SearchOutcome)
  | continuation (origin : Origin) (q : String) (items : List SearchItem)
  | fwdFollowUp (e : SSEEvent)
  | writeDone
deriving DecidableEq, Repr

/-- The handler's mutable locals (source lines 917-948). `bufferedCount`
is the length of `bufferedEvents` (every buffered event is a
`content_block_start`, so the filtered length used for notice indexes
equals it); `searchCount` indexes the oracle. -/
structure SpliceState where
  detectedWebSearch : Bool
  currentToolUse : Option String
  toolUseInputJson : String
  thinkingContent : String
  thinkingIndex : Int
  searchTriggeredFromThinking : Bool
  bufferedCount : Nat
  searchCount : Nat
deriving DecidableEq, Repr

def initState : SpliceState :=
  { detectedWebSearch := false
    currentToolUse := none
    toolUseInputJson := ""
    thinkingContent := ""
    thinkingIndex := -1
    searchTriggeredFromThinking := false
    bufferedCount := 0
    searchCount := 0 }

/-- JavaScript regex `\s` over the ASCII range. -/
def isRegexWs (c : Char) : Bool :=
  c = ' ' || c = '\t' || c = '\n' || c = '\r' || c = Char.ofNat 11 || c = Char.ofNat 12

def queryKeyLit : List Char := '"' :: 'q' :: 'u' :: 'e' :: 'r' :: 'y' :: '"' :: []

/-- One anchored attempt of the fallback pattern
`/"query"\s*:\s*"([^"]+)"/`: the literal key, optional whitespace, a
colon, optional whitespace, then a quoted nonempty capture of non-quote
characters.  The capture is maximal; a shorter capture cannot succeed
because the following character would still not be a quote. -/
def tryQueryPattern (input : List Char) : Option String :=
  if queryKeyLit.isPrefixOf input then
    match (input.drop 7).dropWhile isRegexWs with
    | ':' :: r2 =>
      (match r2.dropWhile isRegexWs with
       | '"' :: r4 =>
         let cap := r4.takeWhile (fun c => !(c = '"'))
         if cap = [] then none
         else if (r4.drop cap.length).head? = some '"' then some (String.mk cap) else none
       | _ => none)
    | _ => none
  else none

/-- Leftmost match of the fallback pattern. -/
def extractQueryRegexL : List Char → Option String
  | [] => none
  | c :: rest =>
    match tryQueryPattern (c :: rest) with
    | some s => some s
    | none => extractQueryRegexL rest

/-- Query extraction at tool completion (source lines 1186-1200):
`JSON.parse` the accumulated argument JSON and take its `query` field
when that is a nonempty string (`query && typeof query === 'string'`);
only when parsing throws, fall back to the regex (whose capture is
always a nonempty string). -/
def extractQuery (raw : String) : Option String :=
  match jsonParse raw with
  | some v =>
    (match lookupField v "query" with
     | some (.str s) => if s = "" then none else some s
     | _ => none)
  | none => extractQueryRegexL raw.data

def searchingNotice : String := "\n🔍 Searching Google...\n"

def searchingNoticeThinking : String := "\n\n🔍 Searching Google..."

def foundNotice (n : Nat) : String := "✓ Found " ++ toString n ++ " results\n\n"

def foundNoticeThinking (n : Nat) : String := "\n✓ Found " ++ toString n ++ " results\n\n"

/-- The follow-up forwarding loop (source lines 1277-1285): every event
of the continuation's stream is forwarded verbatim until its `done`,
which emits the terminal `data: [DONE]` and stops.  No detection, no
execution. -/
def followUpRun : List SSEEvent → List OutAction
  | [] => []
  | .done :: _ => [.writeDone]
  | e :: rest => .fwdFollowUp e :: followUpRun rest

/-- The thinking-state reset on `content_block_stop` (source lines
1130-1133); it runs before the execution branch and does not `continue`. -/
def resetThinkingOnStop (s : SpliceState) : SpliceState :=
  if 0 ≤ s.thinkingIndex then { s with thinkingIndex := -1, thinkingContent := "" } else s

/-- The streaming request handler loop (source lines 950-1306).  Branch
order follows the source: the `done` handling (with the end-of-stream
heuristic), the buffer-or-forward write (line 1031-1040), thinking-block
tracking, the mid-block heuristic, the thinking reset on
`content_block_stop`, explicit tool detection, argument accumulation,
and execution at `content_block_stop`.  Events not consumed by a
`continue` are written a second time by the loop's final forward (line
1305), exactly as in the source. -/
def spliceRun (detect : String → Option String) (oracle : Nat → SearchOutcome)
    (fup : List SSEEvent) : SpliceState → List SSEEvent → List OutAction
  | _, [] => []
  | s, .done :: _ =>
    if !s.searchTriggeredFromThinking && !s.detectedWebSearch &&
        !(s.thinkingContent == "") then
      match detect s.thinkingContent with
      | some q =>
        .noticeT s.thinkingIndex searchingNoticeThinking ::
        (match oracle s.searchCount with
         | .ok items =>
           .search .fromThinking q (.ok items) ::
           .noticeT s.thinkingIndex (foundNoticeThinking items.length) ::
           .continuation .fromThinking q items :: followUpRun fup
         | .err m => [.search .fromThinking q (.err m), .writeDone])
      | none => [.writeDone]
    else [.writeDone]
  | s, .blockStartToolUse name id :: rest =>
    if name = "GoogleSearch" then
      .notice (s.bufferedCount + 1) "" ::
      .notice (s.bufferedCount + 1) searchingNotice ::
      .notice (s.bufferedCount + 1) "" ::
      spliceRun detect oracle fup
        { s with bufferedCount := s.bufferedCount + 1
                 detectedWebSearch := true
                 currentToolUse := some id } rest
    else
      .fwd (.blockStartToolUse name id) :: .fwd (.blockStartToolUse name id) ::
        spliceRun detect oracle fup s rest
  | s, .blockStartThinking idx :: rest =>
    .fwd (.blockStartThinking idx) :: .fwd (.blockStartThinking idx) ::
      spliceRun detect oracle fup { s with thinkingIndex := idx, thinkingContent := "" } rest
  | s, .thinkingDelta t :: rest =>
    if !s.searchTriggeredFromThinking && !s.detectedWebSearch then
      match detect (s.thinkingContent ++ t) with
      | some q =>
        if 15 < (s.thinkingContent ++ t).length then
          .fwd (.thinkingDelta t) ::
          .noticeT s.thinkingIndex searchingNoticeThinking ::
          (match oracle s.searchCount with
           | .ok items =>
             .search .fromThinking q (.ok items) ::
             .noticeT s.thinkingIndex (foundNoticeThinking items.length) ::
             .continuation .fromThinking q items :: followUpRun fup
           | .err m =>
             .search .fromThinking q (.err m) :: .fwd (.thinkingDelta t) ::
               spliceRun detect oracle fup
                 { s with thinkingContent := s.thinkingContent ++ t
                          detectedWebSearch := true
                          searchTriggeredFromThinking := true
                          searchCount := s.searchCount + 1 } rest)
        else
          .fwd (.thinkingDelta t) :: .fwd (.thinkingDelta t) ::
            spliceRun detect oracle fup
              { s with thinkingContent := s.thinkingContent ++ t } rest
      | none =>
        .fwd (.thinkingDelta t) :: .fwd (.thinkingDelta t) ::
          spliceRun detect oracle fup
            { s with thinkingContent := s.thinkingContent ++ t } rest
    else
      .fwd (.thinkingDelta t) :: .fwd (.thinkingDelta t) ::
        spliceRun detect oracle fup
          { s with thinkingContent := s.thinkingContent ++ t } rest
  | s, .inputJsonDelta pj :: rest =>
    (match s.currentToolUse with
     | some _ =>
       .fwd (.inputJsonDelta pj) ::
         spliceRun detect oracle fup
           { s with toolUseInputJson := s.toolUseInputJson ++ pj } rest
     | none =>
       .fwd (.inputJsonDelta pj) :: .fwd (.inputJsonDelta pj) ::
         spliceRun detect oracle fup s rest)
  | s, .blockStop :: rest =>
    let s1 := resetThinkingOnStop s
    (match s1.currentToolUse with
     | some _ =>
       (match extractQuery s1.toolUseInputJson with
        | some q =>
          (match oracle s1.searchCount with
           | .ok items =>
             .fwd .blockStop ::
             .search .fromToolUse q (.ok items) ::
             .notice s1.bufferedCount (foundNotice items.length) ::
             .continuation .fromToolUse q items :: followUpRun fup
           | .err m =>
             .fwd .blockStop :: .search .fromToolUse q (.err m) ::
               spliceRun detect oracle fup
                 { s1 with currentToolUse := none
                           toolUseInputJson := ""
                           searchCount := s1.searchCount + 1 } rest)
        | none =>
          .fwd .blockStop ::
            spliceRun detect oracle fup
              { s1 with currentToolUse := none, toolUseInputJson := "" } rest)
     | none => .fwd .blockStop :: .fwd .blockStop :: spliceRun detect oracle fup s1 rest)
  | s, .textDelta t :: rest =>
    .fwd (.textDelta t) :: .fwd (.textDelta t) :: spliceRun detect oracle fup s rest
  | s, .otherEv :: rest =>
    .fwd .otherEv :: .fwd .otherEv :: spliceRun detect oracle fup s rest

/-! ### Trace observations -/

def isSearchAct : OutAction → Bool
  | .search _ _ _ => true
  | _ => false

def isThinkingSearchAct : OutAction → Bool
  | .search .fromThinking _ _ => true
  | _ => false

def isContinuationAct : OutAction → Bool
  | .continuation _ _ _ => true
  | _ => false

/-- Number of Action Executor invocations recorded in a trace. -/
def countSearch (tr : List OutAction) : Nat := tr.countP isSearchAct

/-- Number of heuristic (thinking-path) invocations in a trace. -/
def countHeuristicSearch (tr : List OutAction) : Nat := tr.countP isThinkingSearchAct

/-- Number of continuation round-trips issued in a trace. -/
def countContinuation (tr : List OutAction) : Nat := tr.countP isContinuationAct

/-- The part of a trace strictly after its first continuation action
(`none` when no continuation occurs). -/
def afterFirstContinuation : List OutAction → Option (List OutAction)
  | [] => none
  | a :: tr => if isContinuationAct a then some tr else afterFirstContinuation tr

def isDoneEv : SSEEvent → Bool
  | .done => true
  | _ => false

/-- The upstream stream contains an explicit GoogleSearch tool-call
structure. -/
def containsGSToolStart (evs : List SSEEvent) : Bool :=
  evs.any (fun e =>
    match e with
    | .blockStartToolUse name _ => name == "GoogleSearch"
    | _ => false)

theorem followUpRun_countSearch (fup : List SSEEvent) :
    countSearch (followUpRun fup) = 0 := by
  induction fup with
  | nil => simp [followUpRun, countSearch]
  | cons e rest ih =>
    cases e <;> simp [followUpRun, countSearch, List.countP_cons, isSearchAct] <;>
      simpa [countSearch] using ih

theorem followUpRun_countContinuation (fup : List SSEEvent) :
    countContinuation (followUpRun fup) = 0 := by
  induction fup with
  | nil => simp [followUpRun, countContinuation]
  | cons e rest ih =>
    cases e <;> simp [followUpRun, countContinuation, List.countP_cons, isContinuationAct] <;>
      simpa [countContinuation] using ih

theorem followUpRun_countHeuristicSearch (fup : List SSEEvent) :
    countHeuristicSearch (followUpRun fup) = 0 := by
  induction fup with
  | nil => simp [followUpRun, countHeuristicSearch]
  | cons e rest ih =>
    cases e <;>
      simp [followUpRun, countHeuristicSearch, List.countP_cons, isThinkingSearchAct] <;>
      simpa [countHeuristicSearch] using ih

theorem followUpRun_forwards (fup : List SSEEvent) :
    followUpRun fup = (fup.takeWhile (fun e => !isDoneEv e)).map .fwdFollowUp ++
      (if fup.any isDoneEv then [.writeDone] else []) := by
  induction fup with
  | nil => simp [followUpRun]
  | cons e rest ih =>
    cases e <;> simp [followUpRun, isDoneEv, List.takeWhile, ih]

theorem resetThinkingOnStop_currentToolUse (s : SpliceState) :
    (resetThinkingOnStop s).currentToolUse = s.currentToolUse := by
  unfold resetThinkingOnStop
  split <;> rfl

theorem resetThinkingOnStop_detected (s : SpliceState) :
    (resetThinkingOnStop s).detectedWebSearch = s.detectedWebSearch := by
  unfold resetThinkingOnStop
  split <;> rfl

theorem countContinuation_nil : countContinuation [] = 0 := rfl

theorem countContinuation_cons (a : OutAction) (tr : List OutAction) :
    countContinuation (a :: tr) =
      (if isContinuationAct a then 1 else 0) + countContinuation tr := by
  simp [countContinuation, List.countP_cons]
  split <;> omega

theorem countSearch_nil : countSearch [] = 0 := rfl

theorem countSearch_cons (a : OutAction) (tr : List OutAction) :
    countSearch (a :: tr) = (if isSearchAct a then 1 else 0) + countSearch tr := by
  simp [countSearch, List.countP_cons]
  split <;> omega

theorem countHeuristicSearch_nil : countHeuristicSearch [] = 0 := rfl

theorem countHeuristicSearch_cons (a : OutAction) (tr : List OutAction) :
    countHeuristicSearch (a :: tr) =
      (if isThinkingSearchAct a then 1 else 0) + countHeuristicSearch tr := by
  simp [countHeuristicSearch, List.countP_cons]
  split <;> omega

theorem spliceRun_countContinuation_le_one (detect : String → Option String)
    (oracle : Nat → SearchOutcome) (fup : List SSEEvent) :
    ∀ (evs : List SSEEvent) (s : SpliceState),
      countContinuation (spliceRun detect oracle fup s evs) ≤ 1 := by
  intro evs
  induction evs with
  | nil => intro s; simp [spliceRun, countContinuation]
  | cons e rest ih =>
    intro s
    cases e <;> simp only [spliceRun] <;> repeat' split
    all_goals
      simp only [countContinuation_cons, countContinuation_nil, isContinuationAct,
        followUpRun_countContinuation, if_true, if_false]
    all_goals simp
    all_goals exact ih _

theorem afterFirstContinuation_followUpRun (fup : List SSEEvent) :
    afterFirstContinuation (followUpRun fup) = none := by
  induction fup with
  | nil => rfl
  | cons e rest ih =>
    cases e <;> simp [followUpRun, afterFirstContinuation, isContinuationAct, ih]

theorem spliceRun_afterFirstContinuation (detect : String → Option String)
    (oracle : Nat → SearchOutcome) (fup : List SSEEvent) :
    ∀ (evs : List SSEEvent) (s : SpliceState),
      afterFirstContinuation (spliceRun detect oracle fup s evs) = none ∨
        afterFirstContinuation (spliceRun detect oracle fup s evs) =
          some (followUpRun fup) := by
  intro evs
  induction evs with
  | nil => intro s; left; rfl
  | cons e rest ih =>
    intro s
    cases e <;> simp only [spliceRun] <;> repeat' split
    all_goals
      simp [afterFirstContinuation, isContinuationAct, afterFirstContinuation_followUpRun]
    all_goals exact ih _

theorem spliceRun_countSearch_le_one (detect : String → Option String)
    (oracle : Nat → SearchOutcome) (fup : List SSEEvent)
    (hok : ∀ k, (oracle k).isOk = true) :
    ∀ (evs : List SSEEvent) (s : SpliceState),
      countSearch (spliceRun detect oracle fup s evs) ≤ 1 := by
  have hok2 : ∀ k m, oracle k ≠ SearchOutcome.err m := by
    intro k m he
    have h := hok k
    rw [he] at h
    simp [SearchOutcome.isOk] at h
  intro evs
  induction evs with
  | nil => intro s; simp [spliceRun, countSearch]
  | cons e rest ih =>
    intro s
    cases e <;> simp only [spliceRun] <;> repeat' split
    all_goals
      simp only [countSearch_cons, countSearch_nil, isSearchAct, followUpRun_countSearch,
        if_true, if_false]
    all_goals simp_all
    all_goals exact ih _

theorem spliceRun_detected_no_heuristic (detect : String → Option String)
    (oracle : Nat → SearchOutcome) (fup : List SSEEvent) :
    ∀ (evs : List SSEEvent) (s : SpliceState), s.detectedWebSearch = true →
      countHeuristicSearch (spliceRun detect oracle fup s evs) = 0 := by
  intro evs
  induction evs with
  | nil => intro s _; simp [spliceRun, countHeuristicSearch]
  | cons e rest ih =>
    intro s hdet
    cases e <;> simp only [spliceRun] <;> repeat' split
    all_goals
      simp only [countHeuristicSearch_cons, countHeuristicSearch_nil, isThinkingSearchAct,
        followUpRun_countHeuristicSearch, if_true, if_false]
    all_goals simp_all [resetThinkingOnStop_detected]
    all_goals exact ih _ (by simp_all [resetThinkingOnStop_detected])

/-! ## Claims C1, C2, C3, C9 -/

/-- C1 (code evaluated at the failing input): when the explicit
GoogleSearch tool call completes and the Action Executor throws (here a
connection error; `performGoogleSearch` throws on every failure
including non-2xx and timeout), the handler performs the one search
invocation but issues no continuation at all — the catch block only
logs, the dead `errorResult` string is never used, the tool state is
cleared, and the original stream is forwarded to its terminal `[DONE]`.
The spec requires the Splicer to proceed to `Continuing` with the error
text injected; the code does not. -/
theorem C1_search_error_drops_continuation :
    countSearch (spliceRun (fun _ => none)
      (fun _ => SearchOutcome.err "connect ECONNREFUSED")
      [.textDelta "follow-up answer", .done] initState
      [.blockStartToolUse "GoogleSearch" "t1",
       .inputJsonDelta "\x7b\"query\": \"test\"\x7d", .blockStop,
       .textDelta "tail", .done]) = 1 ∧
    countContinuation (spliceRun (fun _ => none)
      (fun _ => SearchOutcome.err "connect ECONNREFUSED")
      [.textDelta "follow-up answer", .done] initState
      [.blockStartToolUse "GoogleSearch" "t1",
       .inputJsonDelta "\x7b\"query\": \"test\"\x7d", .blockStop,
       .textDelta "tail", .done]) = 0 ∧
    (spliceRun (fun _ => none)
      (fun _ => SearchOutcome.err "connect ECONNREFUSED")
      [.textDelta "follow-up answer", .done] initState
      [.blockStartToolUse "GoogleSearch" "t1",
       .inputJsonDelta "\x7b\"query\": \"test\"\x7d", .blockStop,
       .textDelta "tail", .done]).getLast? = some .writeDone :=
  ⟨rfl, rfl, rfl⟩

/-- C2 counterexample: a stream carrying an explicit GoogleSearch
tool-call structure whose completed invocation has no extractable query
(here: no argument deltas at all, so `JSON.parse('')` throws and the
regex finds nothing) triggers zero Action Executor invocations, not
exactly one.  The heuristic classifier is never consulted on this
stream (no thinking content accumulates), so the instance
`fun _ => none` is immaterial. -/
theorem C2_zero_invocations_counterexample :
    containsGSToolStart
        [.blockStartToolUse "GoogleSearch" "t1", .blockStop, .done] = true ∧
    countSearch (spliceRun (fun _ => none) (fun _ => SearchOutcome.ok []) []
      initState [.blockStartToolUse "GoogleSearch" "t1", .blockStop, .done]) = 0 :=
  ⟨rfl, rfl⟩

/-- C2 (amended): for every client request, every upstream stream, every
intent classifier and every continuation stream, if every provider call
succeeds then the Action Executor is invoked at most once, regardless of
how many argument-fragment deltas arrive or how many further tool-call
structures appear after the first: the first successful invocation
issues the continuation and ends processing of the original stream. -/
theorem C2_at_most_one_execution (detect : String → Option String)
    (oracle : Nat → SearchOutcome) (fup evs : List SSEEvent)
    (hok : ∀ k, (oracle k).isOk = true) :
    countSearch (spliceRun detect oracle fup initState evs) ≤ 1 :=
  spliceRun_countSearch_le_one detect oracle fup hok evs initState

/-- Witness for `C2_at_most_one_execution` on a stream with one explicit
tool call carrying a well-formed query, an always-succeeding provider,
and further argument deltas. -/
theorem C2_at_most_one_execution_witness :
    countSearch (spliceRun (fun _ => none) (fun _ => SearchOutcome.ok []) []
      initState
      [.blockStartToolUse "GoogleSearch" "t1",
       .inputJsonDelta "\x7b\"query\": ",
       .inputJsonDelta "\"x\"\x7d", .blockStop, .done]) ≤ 1 :=
  C2_at_most_one_execution (fun _ => none) (fun _ => SearchOutcome.ok []) []
    [.blockStartToolUse "GoogleSearch" "t1",
     .inputJsonDelta "\x7b\"query\": ",
     .inputJsonDelta "\"x\"\x7d", .blockStop, .done]
    (fun _ => rfl)

/-- C3: for every client request, at most one continuation round-trip is
issued; when one is issued, everything the client receives afterwards is
exactly the follow-up forwarding loop's output, which forwards every
event of the continuation's stream as ordinary content (up to its
`done`) and performs no Action Executor call and no further continuation
— no recursive tool-chaining. -/
theorem C3_single_continuation_no_recursion (detect : String → Option String)
    (oracle : Nat → SearchOutcome) (fup evs : List SSEEvent) :
    countContinuation (spliceRun detect oracle fup initState evs) ≤ 1 ∧
    (afterFirstContinuation (spliceRun detect oracle fup initState evs) = none ∨
      afterFirstContinuation (spliceRun detect oracle fup initState evs) =
        some (followUpRun fup)) ∧
    countSearch (followUpRun fup) = 0 ∧
    countContinuation (followUpRun fup) = 0 ∧
    followUpRun fup = (fup.takeWhile (fun e => !isDoneEv e)).map .fwdFollowUp ++
      (if fup.any isDoneEv then [.writeDone] else []) :=
  ⟨spliceRun_countContinuation_le_one detect oracle fup evs initState,
   spliceRun_afterFirstContinuation detect oracle fup evs initState,
   followUpRun_countSearch fup,
   followUpRun_countContinuation fup,
   followUpRun_forwards fup⟩

/-- A concrete intent-classifier instance for the C9 counterexample.  On
the reasoning text below, the source's first pattern
`/\b(?:search|find|look up|google|search\s+for)\s+(?:for\s+)?(.{5,100})/i`
matches at "search", consumes the optional "for ", and its greedy
capture group yields exactly "latest news now"; `detectSearchInThinking`
returns `match[1]`.  On every other input this instance declines, which
only strengthens the counterexample. -/
def demoDetect (s : String) : Option String :=
  if s = "I need to search for latest news now" then some "latest news now" else none

/-- C9 counterexample: the heuristic path can fire in a stream that does
produce explicit tool structure — the thinking text arrives before the
tool block, the heuristic executes the search and the handler returns,
never reaching the explicit structure.  Explicit and heuristic detection
are therefore not mutually exclusive per request in the claimed
direction. -/
theorem C9_heuristic_fires_counterexample :
    containsGSToolStart
        [.blockStartThinking 0,
         .thinkingDelta "I need to search for latest news now",
         .blockStartToolUse "GoogleSearch" "t1",
         .inputJsonDelta "\x7b\"query\": \"x\"\x7d", .blockStop, .done] = true ∧
    countHeuristicSearch (spliceRun demoDetect (fun _ => SearchOutcome.ok []) []
      initState
      [.blockStartThinking 0,
       .thinkingDelta "I need to search for latest news now",
       .blockStartToolUse "GoogleSearch" "t1",
       .inputJsonDelta "\x7b\"query\": \"x\"\x7d", .blockStop, .done]) = 1 :=
  ⟨rfl, rfl⟩

/-- C9 (amended): from the moment explicit tool structure is processed,
the heuristic is disabled: for every state, classifier, oracle and
continuation stream, once a GoogleSearch `tool_use` block start has been
handled, no heuristic search fires during the remainder of the request
(`detectedWebSearch` is set and never cleared, and both heuristic sites
require it unset). -/
theorem C9_no_heuristic_after_explicit (detect : String → Option String)
    (oracle : Nat → SearchOutcome) (fup : List SSEEvent) (id : String)
    (rest : List SSEEvent) (s : SpliceState) :
    countHeuristicSearch (spliceRun detect oracle fup s
      (.blockStartToolUse "GoogleSearch" id :: rest)) = 0 := by
  have h := spliceRun_detected_no_heuristic detect oracle fup rest
    { s with bufferedCount := s.bufferedCount + 1
             detectedWebSearch := true
             currentToolUse := some id } (by simp)
  simp [spliceRun, countHeuristicSearch_cons, isThinkingSearchAct, h]
